import Mathlib

/-!
Shallow embedding of the OrbitForge physics core (`src-tauri/src`) and proofs
about it.  `f64` arithmetic is idealised as exact real arithmetic: `f64` is
modelled by `ℝ`, `f64::sqrt` by `Real.sqrt` and `f64::cbrt` (used only on
nonnegative inputs) by `x ^ (1/3 : ℝ)`.  Growable collections (`Vec`,
`VecDeque`) are modelled by `List`.  The bounded-depth octree insertion
(`depth >= MAX_DEPTH` guard, see `barneshut.rs`) is modelled with an explicit
fuel argument `fuel = MAX_DEPTH - depth`, together with a Boolean flag that
records whether the depth cap was ever reached.  The GPU compute shader
(`gpu_gravity.rs`) runs in single precision on an external device; it is
modelled as an abstract function held in the state's `gpu` field.  Random
number generators (`rand::Rng`) are modelled as oracle streams `ℕ → ℝ`,
each draw reading a fresh index.
-/

noncomputable section

namespace OrbitForge

/-- `physics.rs`: `Vec3` — three doubles with componentwise arithmetic. -/
structure Vec3 where
  x : ℝ
  y : ℝ
  z : ℝ
deriving DecidableEq

namespace Vec3

def new (x y z : ℝ) : Vec3 := ⟨x, y, z⟩

def zero : Vec3 := ⟨0, 0, 0⟩

/-- `Vec3::magnitude`. -/
def magnitude (v : Vec3) : ℝ := Real.sqrt (v.x * v.x + v.y * v.y + v.z * v.z)

/-- `Vec3::scale`. -/
def scale (v : Vec3) (s : ℝ) : Vec3 := ⟨v.x * s, v.y * s, v.z * s⟩

instance : Add Vec3 := ⟨fun a b => ⟨a.x + b.x, a.y + b.y, a.z + b.z⟩⟩

instance : Sub Vec3 := ⟨fun a b => ⟨a.x - b.x, a.y - b.y, a.z - b.z⟩⟩

@[simp] theorem add_def (a b : Vec3) : a + b = ⟨a.x + b.x, a.y + b.y, a.z + b.z⟩ := rfl

@[simp] theorem sub_def (a b : Vec3) : a - b = ⟨a.x - b.x, a.y - b.y, a.z - b.z⟩ := rfl

@[simp] theorem scale_def (v : Vec3) (s : ℝ) : v.scale s = ⟨v.x * s, v.y * s, v.z * s⟩ := rfl

@[simp] theorem zero_def : Vec3.zero = ⟨0, 0, 0⟩ := rfl

end Vec3

/-- Squared Euclidean norm, the `x*x + y*y + z*z` pattern of the source. -/
def normSq (v : Vec3) : ℝ := v.x * v.x + v.y * v.y + v.z * v.z

/-- Model of `f64::cbrt` (only ever applied to nonnegative inputs here). -/
def cbrt (x : ℝ) : ℝ := x ^ ((1 : ℝ) / 3)

/-- `physics.rs`: `MAX_TRAIL_POINTS`. -/
def MAX_TRAIL_POINTS : ℕ := 500

/-- `physics.rs`: `TrailPoint`. -/
structure TrailPoint where
  x : ℝ
  y : ℝ
  z : ℝ
  speed : ℝ

/-- `physics.rs`: `BodyType`. -/
inductive BodyType where
  | star
  | planet
  | spacecraft
deriving DecidableEq

/-- `physics.rs`: `CelestialBody`. -/
structure CelestialBody where
  id : ℕ
  position : Vec3
  velocity : Vec3
  acceleration : Vec3
  mass : ℝ
  radius : ℝ
  color : String
  trail : List TrailPoint
  is_fixed : Bool
  name : String
  body_type : BodyType
  thrust : Vec3
  fuel : ℝ
  max_fuel : ℝ

namespace CelestialBody

/-- `CelestialBody::new`. -/
def new (id : ℕ) (name : String) (position velocity : Vec3) (mass radius : ℝ)
    (color : String) (is_fixed : Bool) : CelestialBody :=
  { id := id
    position := position
    velocity := velocity
    acceleration := Vec3.zero
    mass := mass
    radius := radius
    color := color
    trail := []
    is_fixed := is_fixed
    name := name
    body_type := if is_fixed then BodyType.star else BodyType.planet
    thrust := Vec3.zero
    fuel := 100
    max_fuel := 100 }

/-- `CelestialBody::record_trail`: push back, evict the oldest past 500 points. -/
def record_trail (b : CelestialBody) : CelestialBody :=
  let t := b.trail ++ [⟨b.position.x, b.position.y, b.position.z, b.velocity.magnitude⟩]
  { b with trail := if MAX_TRAIL_POINTS < t.length then t.tail else t }

end CelestialBody

/-- A placeholder body used to give list indexing a total meaning; every
index used by the embedded loops is in bounds. -/
def defaultBody : CelestialBody :=
  CelestialBody.new 0 ("") Vec3.zero Vec3.zero 0 0 ("") false

instance : Inhabited CelestialBody := ⟨defaultBody⟩

/-- In-bounds list indexing of the source's `bodies[i]`. -/
def bget (l : List CelestialBody) (i : ℕ) : CelestialBody := l.getD i defaultBody

end OrbitForge

namespace OrbitForge

/-- `barneshut.rs`: `MAX_DEPTH`. -/
def MAX_DEPTH : ℕ := 20

/-- The value of `f64::MAX` (used to seed the bounding-box fold). -/
def f64MAX : ℝ := 2 ^ 1024 - 2 ^ 971

/-- The value of `f64::MIN`. -/
def f64MIN : ℝ := -f64MAX

/-- `barneshut.rs`: `OctreeNode`.  The lazily created `children:
[Option<Box<OctreeNode>>; 8]` array is modelled as an association list from
octant index to child node (a slot is present exactly when the source slot
is `Some`). -/
inductive OctreeNode where
  | mk (center : Vec3) (half_size : ℝ) (total_mass : ℝ) (center_of_mass : Vec3)
       (body_index : Option ℕ) (children : List (ℕ × OctreeNode))

namespace OctreeNode

/-- `OctreeNode::new`. -/
def new (center : Vec3) (half_size : ℝ) : OctreeNode :=
  .mk center half_size 0 Vec3.zero none []

def total_mass : OctreeNode → ℝ
  | .mk _ _ tm _ _ _ => tm

def center_of_mass : OctreeNode → Vec3
  | .mk _ _ _ com _ _ => com

def body_index : OctreeNode → Option ℕ
  | .mk _ _ _ _ bi _ => bi

def children : OctreeNode → List (ℕ × OctreeNode)
  | .mk _ _ _ _ _ cs => cs

end OctreeNode

/-- `OctreeNode::octant`: bit 0 for `pos.x >= center.x`, bit 1 for y, bit 2 for z. -/
def octant (center pos : Vec3) : ℕ :=
  (if center.x ≤ pos.x then 1 else 0) +
  (if center.y ≤ pos.y then 2 else 0) +
  (if center.z ≤ pos.z then 4 else 0)

/-- `OctreeNode::child_center`. -/
def child_center (center : Vec3) (half_size : ℝ) (o : ℕ) : Vec3 :=
  let q := half_size * 0.5
  ⟨center.x + (if o &&& 1 ≠ 0 then q else -q),
   center.y + (if o &&& 2 ≠ 0 then q else -q),
   center.z + (if o &&& 4 ≠ 0 then q else -q)⟩

/-- The `depth >= MAX_DEPTH` branch of `OctreeNode::insert`: merge the mass
into this node's aggregate and stop. -/
def capAccumulate (t : OctreeNode) (pos : Vec3) (mass : ℝ) : OctreeNode :=
  match t with
  | .mk ctr hs tm com bi cs =>
    let newMass := tm + mass
    let com2 := if 0 < newMass then
        Vec3.mk ((com.x * tm + pos.x * mass) / newMass)
                ((com.y * tm + pos.y * mass) / newMass)
                ((com.z * tm + pos.z * mass) / newMass)
      else com
    .mk ctr hs newMass com2 bi cs

/-- Replace the first child slot with the given octant key
(`self.children[octant] = ...`). -/
def replaceChild : List (ℕ × OctreeNode) → ℕ → OctreeNode → List (ℕ × OctreeNode)
  | [], _, _ => []
  | (k, c0) :: rest, o, c =>
    if k = o then (k, c) :: rest else (k, c0) :: replaceChild rest o c

/-- `OctreeNode::insert` (with `insert_into_child` inlined as `ins`).
`fuel = MAX_DEPTH - depth`; the returned flag records whether the
`depth >= MAX_DEPTH` accumulation branch was ever taken. -/
def insertA (fuel : ℕ) (t : OctreeNode) (idx : ℕ) (pos : Vec3) (mass : ℝ) :
    OctreeNode × Bool :=
  match fuel, t with
  | 0, t => (capAccumulate t pos mass, true)
  | Nat.succ f, .mk ctr hs tm com bi cs =>
    if tm = 0 ∧ bi = none then
      -- empty leaf: store this body
      (.mk ctr hs mass pos (some idx) cs, false)
    else
      -- `insert_into_child(j, p, m, depth)`
      let ins := fun (cs0 : List (ℕ × OctreeNode)) (j : ℕ) (p : Vec3) (m : ℝ) =>
        let o := octant ctr p
        match List.lookup o cs0 with
        | some c =>
          let r := insertA f c j p m
          (replaceChild cs0 o r.1, r.2)
        | none =>
          let r := insertA f (OctreeNode.new (child_center ctr hs o) (hs * 0.5)) j p m
          (cs0 ++ [(o, r.1)], r.2)
      -- single-body leaf: evict the stored body into a child after zeroing
      -- this node's aggregates
      let st1 : ℝ × Vec3 × List (ℕ × OctreeNode) × Bool :=
        match bi with
        | some e =>
          let r := ins cs e com tm
          (0, Vec3.zero, r.1, r.2)
        | none => (tm, com, cs, false)
      match st1 with
      | (tm1, com1, cs1, flag1) =>
        let r2 := ins cs1 idx pos mass
        let newMass := tm1 + mass
        let com2 := if 0 < newMass then
            Vec3.mk ((com1.x * tm1 + pos.x * mass) / newMass)
                    ((com1.y * tm1 + pos.y * mass) / newMass)
                    ((com1.z * tm1 + pos.z * mass) / newMass)
          else com1
        (.mk ctr hs newMass com2 none r2.1, flag1 || r2.2)

/-- `barneshut.rs`: `direct_accel`. -/
def direct_accel (pos other_pos : Vec3) (other_mass g softening_sq : ℝ) : Vec3 :=
  let diff := other_pos - pos
  let dist_sq := diff.x * diff.x + diff.y * diff.y + diff.z * diff.z + softening_sq
  let dist := Real.sqrt dist_sq
  let force_mag := g * other_mass / dist_sq
  diff.scale (force_mag / dist)

/-- `OctreeNode::compute_acceleration`. -/
def OctreeNode.compute_acceleration (t : OctreeNode) (pos : Vec3) (body_index : ℕ)
    (g softening_sq theta : ℝ) : Vec3 :=
  match t with
  | .mk _ctr hs tm com bi cs =>
    if tm = 0 then Vec3.zero
    else
      match bi with
      | some leafIdx =>
        if leafIdx = body_index then Vec3.zero
        else direct_accel pos com tm g softening_sq
      | none =>
        let diff := com - pos
        let dist_sq := diff.x * diff.x + diff.y * diff.y + diff.z * diff.z + softening_sq
        let s := hs * 2
        if s * s < theta * theta * dist_sq then
          direct_accel pos com tm g softening_sq
        else
          (cs.attach.map (fun kc =>
            compute_acceleration kc.1.2 pos body_index g softening_sq theta)).foldl
              (· + ·) Vec3.zero
termination_by sizeOf t
decreasing_by
  simp_wf
  obtain ⟨⟨k, c⟩, hmem⟩ := kc
  have h := List.sizeOf_lt_of_mem hmem
  simp at h ⊢
  omega

/-- `barneshut.rs`: `build_octree`, instrumented with the depth-cap flag. -/
def build_octree (positions : List Vec3) (masses : List ℝ) : OctreeNode × Bool :=
  let min_x := positions.foldl (fun a p => min a p.x) f64MAX
  let min_y := positions.foldl (fun a p => min a p.y) f64MAX
  let min_z := positions.foldl (fun a p => min a p.z) f64MAX
  let max_x := positions.foldl (fun a p => max a p.x) f64MIN
  let max_y := positions.foldl (fun a p => max a p.y) f64MIN
  let max_z := positions.foldl (fun a p => max a p.z) f64MIN
  let cx := (min_x + max_x) * 0.5
  let cy := (min_y + max_y) * 0.5
  let cz := (min_z + max_z) * 0.5
  let half_size := (max (max (max_x - min_x) (max_y - min_y)) (max_z - min_z)) * 0.5 + 1
  let root := OctreeNode.new ⟨cx, cy, cz⟩ half_size
  ((positions.zip masses).enum).foldl
    (fun acc ipm =>
      let r := insertA MAX_DEPTH acc.1 ipm.1 ipm.2.1 ipm.2.2
      (r.1, acc.2 || r.2))
    (root, false)

end OrbitForge

namespace OrbitForge

/-- `simulation.rs`: `EnergyData`. -/
structure EnergyData where
  kinetic : ℝ
  potential : ℝ
  total : ℝ

/-- `simulation.rs`: `CollisionEvent`. -/
structure CollisionEvent where
  absorbed_id : ℕ
  survivor_id : ℕ
  position : Vec3
  combined_mass : ℝ

/-- Abstract model of `GpuGravity::compute_accelerations` (an external
single-precision compute shader): positions, masses, `G`, `softening²` to
accelerations. -/
abbrev GpuFn := List Vec3 → List ℝ → ℝ → ℝ → List Vec3

/-- `simulation.rs`: `SimulationState`. -/
structure SimulationState where
  bodies : List CelestialBody
  tick : ℕ
  dt : ℝ
  g : ℝ
  softening : ℝ
  paused : Bool
  speed_multiplier : ℝ
  next_id : ℕ
  theta : ℝ
  gpu : Option GpuFn

/-- `simulation.rs`: `SimulationFrame`. -/
structure SimulationFrame where
  bodies : List CelestialBody
  tick : ℕ
  paused : Bool
  speed_multiplier : ℝ
  energy : EnergyData

namespace SimulationState

/-- `SimulationState::new`. -/
def new : SimulationState :=
  { bodies := [], tick := 0, dt := 0.016, g := 100, softening := 10,
    paused := false, speed_multiplier := 1, next_id := 0, theta := 0.5, gpu := none }

/-- `SimulationState::allocate_id` (returns the id and the updated state). -/
def allocate_id (s : SimulationState) : ℕ × SimulationState :=
  (s.next_id, { s with next_id := s.next_id + 1 })

/-- `SimulationState::remove_body` (`retain`). -/
def remove_body (s : SimulationState) (id : ℕ) : SimulationState :=
  { s with bodies := s.bodies.filter (fun b => b.id ≠ id) }

/-- `SimulationState::find_body`. -/
def find_body (s : SimulationState) (id : ℕ) : Option CelestialBody :=
  s.bodies.find? (fun b => b.id = id)

/-- `SimulationState::compute_accelerations_brute`. -/
def compute_accelerations_brute (s : SimulationState) : SimulationState :=
  let n := s.bodies.length
  let accels := (List.range n).map (fun i =>
    if (bget s.bodies i).is_fixed then Vec3.zero
    else
      (List.range n).foldl (fun acc j =>
        if i = j then acc
        else
          let diff := (bget s.bodies j).position - (bget s.bodies i).position
          let dist_sq := diff.x * diff.x + diff.y * diff.y + diff.z * diff.z +
            s.softening * s.softening
          let dist := Real.sqrt dist_sq
          let force_mag := s.g * (bget s.bodies j).mass / dist_sq
          let dir := diff.scale (1 / dist)
          acc + dir.scale force_mag) Vec3.zero)
  { s with bodies := List.zipWith (fun b a => { b with acceleration := a }) s.bodies accels }

/-- `SimulationState::compute_accelerations_gpu`. -/
def compute_accelerations_gpu (s : SimulationState) (gpuF : GpuFn) : SimulationState :=
  let positions := s.bodies.map (·.position)
  let masses := s.bodies.map (·.mass)
  let softening_sq := s.softening * s.softening
  let accels := gpuF positions masses s.g softening_sq
  { s with bodies := s.bodies.enum.map (fun ib =>
      if ib.2.is_fixed then { ib.2 with acceleration := Vec3.zero }
      else { ib.2 with acceleration := accels.getD ib.1 Vec3.zero }) }

/-- `SimulationState::compute_accelerations_barneshut`. -/
def compute_accelerations_barneshut (s : SimulationState) : SimulationState :=
  let n := s.bodies.length
  let positions := s.bodies.map (·.position)
  let masses := s.bodies.map (·.mass)
  let tree := (build_octree positions masses).1
  let softening_sq := s.softening * s.softening
  let accels := (List.range n).map (fun i =>
    if (bget s.bodies i).is_fixed then Vec3.zero
    else tree.compute_acceleration (positions.getD i Vec3.zero) i s.g softening_sq s.theta)
  { s with bodies := List.zipWith (fun b a => { b with acceleration := a }) s.bodies accels }

/-- `SimulationState::compute_accelerations` (the force-backend selector). -/
def compute_accelerations (s : SimulationState) : SimulationState :=
  let n := s.bodies.length
  match (if 500 < n then s.gpu else none) with
  | some gf => compute_accelerations_gpu s gf
  | none =>
    if 50 < n then compute_accelerations_barneshut s
    else compute_accelerations_brute s

/-- `SimulationState::add_body`. -/
def add_body (s : SimulationState) (body : CelestialBody) : SimulationState × ℕ :=
  (compute_accelerations { s with bodies := s.bodies ++ [body] }, body.id)

/-- `SimulationState::prime_accelerations`. -/
def prime_accelerations (s : SimulationState) : SimulationState :=
  compute_accelerations s

/-- `SimulationState::clear`. -/
def clear (s : SimulationState) : SimulationState :=
  { s with bodies := [], tick := 0, next_id := 0 }

/-- The position drift of `step_verlet` (skips fixed bodies). -/
def driftB (dt : ℝ) (b : CelestialBody) : CelestialBody :=
  if b.is_fixed then b
  else { b with position := b.position + b.velocity.scale dt +
           b.acceleration.scale (0.5 * dt * dt) }

/-- The spacecraft-thrust pass of `step_verlet`. -/
def thrustB (dt : ℝ) (b : CelestialBody) : CelestialBody :=
  if b.body_type = BodyType.spacecraft ∧ 0 < b.fuel then
    let thrust_mag := b.thrust.magnitude
    if 0.001 < thrust_mag then
      { b with acceleration := b.acceleration + b.thrust.scale (1 / b.mass),
               fuel := max (b.fuel - thrust_mag * dt * 0.1) 0 }
    else b
  else b

/-- The velocity kick of `step_verlet` (skips fixed bodies). -/
def kickB (dt : ℝ) (b : CelestialBody) (aOld : Vec3) : CelestialBody :=
  if b.is_fixed then b
  else { b with velocity := b.velocity + (aOld + b.acceleration).scale (0.5 * dt) }

/-- `SimulationState::step_verlet`. -/
def step_verlet (s : SimulationState) (dt : ℝ) : SimulationState :=
  let bs1 := s.bodies.map (driftB dt)
  let old_accelerations := bs1.map (·.acceleration)
  let s2 := compute_accelerations { s with bodies := bs1 }
  let bs3 := s2.bodies.map (thrustB dt)
  let bs4 := List.zipWith (kickB dt) bs3 old_accelerations
  { s2 with bodies := bs4 }

end SimulationState

/-- Scan state of `check_collisions`: bodies, `absorbed` bitmap, events. -/
abbrev ScanState := List CelestialBody × List Bool × List CollisionEvent

/-- The body of the inner collision loop for one pair `(i, j)`. -/
def processPair (st : ScanState) (i j : ℕ) : ScanState :=
  let bs := st.1
  let ab := st.2.1
  let evs := st.2.2
  if ab.getD j false then st
  else
    let diff := (bget bs j).position - (bget bs i).position
    let dist := Real.sqrt (diff.x * diff.x + diff.y * diff.y + diff.z * diff.z)
    let overlap := (bget bs i).radius + (bget bs j).radius
    if dist < overlap then
      -- `if bodies[i].mass >= bodies[j].mass { (i, j) } else { (j, i) }`
      let survivor_idx := if (bget bs j).mass ≤ (bget bs i).mass then i else j
      let absorbed_idx := if (bget bs j).mass ≤ (bget bs i).mass then j else i
      let m1 := (bget bs survivor_idx).mass
      let m2 := (bget bs absorbed_idx).mass
      let total_mass := m1 + m2
      let new_velocity := Vec3.mk
        ((m1 * (bget bs survivor_idx).velocity.x + m2 * (bget bs absorbed_idx).velocity.x)
          / total_mass)
        ((m1 * (bget bs survivor_idx).velocity.y + m2 * (bget bs absorbed_idx).velocity.y)
          / total_mass)
        ((m1 * (bget bs survivor_idx).velocity.z + m2 * (bget bs absorbed_idx).velocity.z)
          / total_mass)
      let new_position := Vec3.mk
        ((m1 * (bget bs survivor_idx).position.x + m2 * (bget bs absorbed_idx).position.x)
          / total_mass)
        ((m1 * (bget bs survivor_idx).position.y + m2 * (bget bs absorbed_idx).position.y)
          / total_mass)
        ((m1 * (bget bs survivor_idx).position.z + m2 * (bget bs absorbed_idx).position.z)
          / total_mass)
      let r1 := (bget bs survivor_idx).radius
      let r2 := (bget bs absorbed_idx).radius
      let new_radius := cbrt (r1 * r1 * r1 + r2 * r2 * r2)
      let collision : CollisionEvent :=
        ⟨(bget bs absorbed_idx).id, (bget bs survivor_idx).id, new_position, total_mass⟩
      let merged := { bget bs survivor_idx with
        mass := total_mass
        velocity := new_velocity
        position := new_position
        radius := new_radius
        is_fixed := if (bget bs absorbed_idx).is_fixed then true
                    else (bget bs survivor_idx).is_fixed }
      (bs.set survivor_idx merged, ab.set absorbed_idx true, evs ++ [collision])
    else st

/-- The inner `j` loop over `(i+1)..n`. -/
def innerLoop (n i : ℕ) (st : ScanState) : ScanState :=
  (List.range' (i + 1) (n - (i + 1))).foldl (fun acc j => processPair acc i j) st

/-- The outer `i` loop of `check_collisions` (the `absorbed[i]` skip is
checked once, before the inner loop, exactly as in the source). -/
def scanLoop (n : ℕ) (st : ScanState) : ScanState :=
  (List.range n).foldl (fun acc i =>
    if acc.2.1.getD i false then acc else innerLoop n i acc) st

/-- The post-scan removal loop (`while i > 0`, high to low). -/
def removeDesc : ℕ → List CelestialBody → List Bool → List CelestialBody
  | 0, bs, _ => bs
  | Nat.succ i, bs, ab =>
    removeDesc i (if ab.getD i false then bs.eraseIdx i else bs) ab

namespace SimulationState

/-- `SimulationState::check_collisions`. -/
def check_collisions (s : SimulationState) : SimulationState × List CollisionEvent :=
  let n := s.bodies.length
  let st := scanLoop n (s.bodies, List.replicate n false, [])
  ({ s with bodies := removeDesc n st.1 st.2.1 }, st.2.2)

/-- One substep of `step`: `step_verlet` followed by `check_collisions`. -/
def substep (s : SimulationState) (dt : ℝ) : SimulationState × List CollisionEvent :=
  check_collisions (step_verlet s dt)

/-- `SimulationState::step`. -/
def step (s : SimulationState) : SimulationState × List CollisionEvent :=
  if s.paused || s.bodies.isEmpty then (s, [])
  else
    let sub_steps := (⌈s.speed_multiplier⌉).toNat
    let dt := s.dt * s.speed_multiplier / (sub_steps : ℝ)
    let p := (List.range sub_steps).foldl
      (fun acc _ =>
        let r := substep acc.1 dt
        (r.1, acc.2 ++ r.2)) (s, [])
    let s1 := p.1
    let s2 := if s1.tick % 2 = 0 then
        { s1 with bodies := s1.bodies.map (fun b =>
            if b.is_fixed then b else b.record_trail) }
      else s1
    ({ s2 with tick := s2.tick + 1 }, p.2)

/-- The forked state built at the top of `predict_orbit` (bodies cloned with
trails cleared, `tick = 0`, `paused = false`, `speed_multiplier = 1`, GPU
handle shared). -/
def predFork (s : SimulationState) : SimulationState :=
  { bodies := s.bodies.map (fun b => { b with trail := [] }),
    tick := 0, dt := s.dt, g := s.g, softening := s.softening, paused := false,
    speed_multiplier := 1, next_id := s.next_id, theta := s.theta, gpu := s.gpu }

/-- The prediction loop of `predict_orbit`. -/
def predictLoop : ℕ → SimulationState → ℕ → List Vec3
  | 0, _, _ => []
  | Nat.succ k, st, body_id =>
    let st2 := st.step_verlet st.dt
    match st2.find_body body_id with
    | some b => b.position :: predictLoop k st2 body_id
    | none => []

/-- `SimulationState::predict_orbit`. -/
def predict_orbit (s : SimulationState) (body_id : ℕ) (steps : ℕ) : List Vec3 :=
  predictLoop steps s.predFork body_id

/-- `SimulationState::compute_energies`. -/
def compute_energies (s : SimulationState) : EnergyData :=
  let n := s.bodies.length
  let ke := s.bodies.foldl (fun acc b =>
    acc + 0.5 * b.mass * (b.velocity.x * b.velocity.x + b.velocity.y * b.velocity.y +
      b.velocity.z * b.velocity.z)) 0
  let pe := (List.range n).foldl (fun acc i =>
    (List.range' (i + 1) (n - (i + 1))).foldl (fun acc2 j =>
      let diff := (bget s.bodies j).position - (bget s.bodies i).position
      let dist := Real.sqrt (diff.x * diff.x + diff.y * diff.y + diff.z * diff.z)
      if 0.001 < dist then
        acc2 - s.g * (bget s.bodies i).mass * (bget s.bodies j).mass / dist
      else acc2) acc) 0
  ⟨ke, pe, ke + pe⟩

/-- `SimulationState::to_frame`. -/
def to_frame (s : SimulationState) : SimulationFrame :=
  ⟨s.bodies, s.tick, s.paused, s.speed_multiplier, s.compute_energies⟩

end SimulationState

end OrbitForge

namespace OrbitForge

/-- `commands.rs`: `BodyData`. -/
structure BodyData where
  x : ℝ
  y : ℝ
  z : ℝ
  vx : ℝ
  vy : ℝ
  vz : ℝ
  mass : ℝ
  radius : ℝ
  color : String
  name : String
  is_fixed : Bool
  body_type : BodyType

/-- `commands.rs`: `BodyUpdate`. -/
structure BodyUpdate where
  mass : Option ℝ
  radius : Option ℝ
  color : Option String
  name : Option String
  is_fixed : Option Bool

/-- `commands.rs`: `add_body` (returns the new id alongside the state). -/
def add_body_cmd (s : SimulationState) (body_data : BodyData) : SimulationState × ℕ :=
  let p := s.allocate_id
  let id := p.1
  let mass := max body_data.mass 0.01
  let radius := max body_data.radius 0.5
  let body := { CelestialBody.new id body_data.name
      ⟨body_data.x, body_data.y, body_data.z⟩ ⟨body_data.vx, body_data.vy, body_data.vz⟩
      mass radius body_data.color body_data.is_fixed with
    body_type := body_data.body_type }
  ((p.2.add_body body).1, id)

/-- `commands.rs`: `remove_body`. -/
def remove_body_cmd (s : SimulationState) (id : ℕ) : SimulationState :=
  s.remove_body id

/-- The field updates applied by `update_body` to the found body. -/
def applyUpdate (fields : BodyUpdate) (b : CelestialBody) : CelestialBody :=
  let b1 := match fields.mass with
    | some m => { b with mass := max m 0.01 }
    | none => b
  let b2 := match fields.radius with
    | some r => { b1 with radius := max r 0.5 }
    | none => b1
  let b3 := match fields.color with
    | some c => { b2 with color := c }
    | none => b2
  let b4 := match fields.name with
    | some nm => { b3 with name := nm }
    | none => b3
  match fields.is_fixed with
  | some fx => { b4 with is_fixed := fx }
  | none => b4

/-- `find_body_mut` followed by in-place mutation: update the first body
with the given id. -/
def updateFirst (id : ℕ) (f : CelestialBody → CelestialBody) :
    List CelestialBody → List CelestialBody
  | [] => []
  | b :: rest => if b.id = id then f b :: rest else b :: updateFirst id f rest

/-- `commands.rs`: `update_body`. -/
def update_body_cmd (s : SimulationState) (id : ℕ) (fields : BodyUpdate) :
    SimulationState :=
  { s with bodies := updateFirst id (applyUpdate fields) s.bodies }

/-- `commands.rs`: `predict_orbit` (clamps `steps` to 2000). -/
def predict_orbit_cmd (s : SimulationState) (body_id : ℕ) (steps : ℕ) : List Vec3 :=
  s.predict_orbit body_id (min steps 2000)

/-- `commands.rs`: `import_state`, applied to the already-deserialised
snapshot: reconcile `next_id`, preserve the current GPU handle, re-prime. -/
def import_state (cur imported : SimulationState) : SimulationState :=
  let max_id := (imported.bodies.map (·.id)).foldl max 0
  let ns := if imported.next_id ≤ max_id then { imported with next_id := max_id + 1 }
            else imported
  SimulationState.prime_accelerations { ns with gpu := cur.gpu }

/-- `scenarios.rs`: `add_planet`. -/
def add_planet (s : SimulationState) (name : String) (orbit_radius mass radius : ℝ)
    (color : String) (sun_mass : ℝ) : SimulationState :=
  let p := s.allocate_id
  let v := Real.sqrt (s.g * sun_mass / orbit_radius)
  let body := CelestialBody.new p.1 name ⟨orbit_radius, 0, 0⟩ ⟨0, v, 0⟩
    mass radius color false
  { p.2 with bodies := p.2.bodies ++ [body] }

/-- `scenarios.rs`: `add_sun`. -/
def add_sun (s : SimulationState) (mass radius : ℝ) : SimulationState :=
  let p := s.allocate_id
  let sun := CelestialBody.new p.1 ("Sun") Vec3.zero Vec3.zero mass radius
    ("#FFD700") true
  { p.2 with bodies := p.2.bodies ++ [sun] }

/-- Model of `rng.random_range(lo..hi)`: `lo + u * (hi - lo)` for a draw
`u ∈ [0,1)` from the oracle stream. -/
def rr (lo hi u : ℝ) : ℝ := lo + u * (hi - lo)

/-- `scenarios.rs`: `load_solar_with_belt`.  `rand` is the oracle stream of
`rng.random::<f64>()` draws (asteroid `i` reads indices `4i..4i+3`). -/
def load_solar_with_belt (s : SimulationState) (rand : ℕ → ℝ) : SimulationState :=
  let s0 := s.clear
  let sun_mass : ℝ := 50000
  let s1 := add_sun s0 sun_mass 20
  let s2 := add_planet s1 ("Mercury") 120 0.055 3 ("#B5B5B5") sun_mass
  let s3 := add_planet s2 ("Venus") 180 0.815 6 ("#E8CDA0") sun_mass
  let s4 := add_planet s3 ("Earth") 250 1 7 ("#4A90D9") sun_mass
  let s5 := add_planet s4 ("Mars") 340 0.107 4.5 ("#C1440E") sun_mass
  let inner_radius : ℝ := 380
  let outer_radius : ℝ := 460
  let s6 := (List.range 200).foldl (fun st i =>
    let r := inner_radius + rand (4 * i) * (outer_radius - inner_radius)
    let angle := rand (4 * i + 1) * (2 * Real.pi)
    let v := Real.sqrt (st.g * sun_mass / r)
    let v_perturb := 1 + (rand (4 * i + 2) - 0.5) * 0.02
    let incl := (rand (4 * i + 3) - 0.5) * 0.1
    let p := st.allocate_id
    let body := CelestialBody.new p.1 ("Asteroid " ++ toString i)
      ⟨r * Real.cos angle, r * Real.sin angle, 0⟩
      ⟨-v * Real.sin angle * v_perturb,
       v * Real.cos angle * v_perturb * Real.cos incl,
       v * Real.sin incl * v_perturb⟩
      0.001 1 ("#888888") false
    { p.2 with bodies := p.2.bodies ++ [body] }) s5
  let s7 := add_planet s6 ("Jupiter") 500 317.8 14 ("#C88B3A") sun_mass
  s7.prime_accelerations

/-- `procedural.rs`: `generate_system`.  Planet `i` reads oracle indices
`5i..5i+4`; the randomised display colors (hue/saturation/lightness strings)
are opaque metadata and are modelled by fixed placeholder strings. -/
def generate_system (s : SimulationState) (rand : ℕ → ℝ) (star_mass : ℝ)
    (planet_count : ℕ) (min_spacing max_radius : ℝ) : SimulationState :=
  let s0 := s.clear
  let p := s0.allocate_id
  let star_radius := min (max (cbrt (star_mass / 1000)) 8) 30
  let star := CelestialBody.new p.1 ("Star") Vec3.zero Vec3.zero star_mass star_radius
    ("hsl") true
  let s1 := { p.2 with bodies := p.2.bodies ++ [star] }
  let spacing_step := if 1 < planet_count
    then (max_radius - min_spacing) / ((planet_count - 1 : ℕ) : ℝ)
    else 0
  let s2 := ((List.range planet_count).foldl (fun acc i =>
    let st := acc.1
    let orbit_radius := acc.2
    let jitter := rr (-0.15) 0.15 (rand (5 * i)) * spacing_step
    let r := max (orbit_radius + jitter) min_spacing
    let mass_exp := rr (-1) 3 (rand (5 * i + 1))
    let mass := (10 : ℝ) ^ mass_exp
    let radius := min (max (cbrt mass * 3) 2) 18
    let v := Real.sqrt (st.g * star_mass / r)
    let angle := rr 0 (2 * Real.pi) (rand (5 * i + 2))
    let inclination := rr (-0.15) 0.15 (rand (5 * i + 3))
    let px := r * Real.cos angle
    let py := r * Real.sin angle
    let vx := -v * Real.sin angle * Real.cos inclination
    let vy := v * Real.cos angle * Real.cos inclination
    let vz := v * Real.sin inclination
    let q := st.allocate_id
    let body := CelestialBody.new q.1 ("Planet") ⟨px, py, 0⟩ ⟨vx, vy, vz⟩
      mass radius ("hsl") false
    ({ q.2 with bodies := q.2.bodies ++ [body] }, orbit_radius + spacing_step))
    (s1, min_spacing)).1
  s2.prime_accelerations

/-- `galaxy.rs`: `generate_disc`.  Particle `i` reads oracle indices
`base + 4i .. base + 4i + 3`. -/
def generate_disc (s : SimulationState) (rand : ℕ → ℝ) (base : ℕ) (center bulk_vel : Vec3)
    (core_mass : ℝ) (count : ℕ) (color : String) : SimulationState :=
  let min_r : ℝ := 30
  let max_r : ℝ := 300
  (List.range count).foldl (fun st i =>
    let u := rand (base + 4 * i)
    let r := min_r + (max_r - min_r) * Real.sqrt u
    let angle := rand (base + 4 * i + 1) * (2 * Real.pi)
    let z_scatter := (rand (base + 4 * i + 2) - 0.5) * 20
    let px := center.x + r * Real.cos angle
    let py := center.y + r * Real.sin angle
    let pz := center.z + z_scatter
    let v := Real.sqrt (st.g * core_mass / r)
    let vx := bulk_vel.x - v * Real.sin angle
    let vy := bulk_vel.y + v * Real.cos angle
    let vz := bulk_vel.z
    let mass : ℝ := 0.01
    let radius := 1 + rand (base + 4 * i + 3) * 0.5
    let p := st.allocate_id
    let body := CelestialBody.new p.1 ("particle") ⟨px, py, pz⟩ ⟨vx, vy, vz⟩
      mass radius color false
    { p.2 with bodies := p.2.bodies ++ [body] }) s

/-- `galaxy.rs`: `generate_collision`. -/
def generate_collision (s : SimulationState) (rand : ℕ → ℝ)
    (particles_per_galaxy : ℕ) : SimulationState :=
  let s0 := s.clear
  let particles := min particles_per_galaxy 500
  let center1 : Vec3 := ⟨-400, 0, 0⟩
  let bulk_vel1 : Vec3 := ⟨30, 5, 0⟩
  let core_mass1 : ℝ := 100000
  let center2 : Vec3 := ⟨400, 0, 0⟩
  let bulk_vel2 : Vec3 := ⟨-30, -5, 0⟩
  let core_mass2 : ℝ := 80000
  let p1 := s0.allocate_id
  let coreA := CelestialBody.new p1.1 ("Galaxy A Core") center1 bulk_vel1
    core_mass1 15 ("#FFD700") false
  let s1 := { p1.2 with bodies := p1.2.bodies ++ [coreA] }
  let s2 := generate_disc s1 rand 0 center1 bulk_vel1 core_mass1 particles ("#8888FF")
  let p2 := s2.allocate_id
  let coreB := CelestialBody.new p2.1 ("Galaxy B Core") center2 bulk_vel2
    core_mass2 13 ("#FF6B35") false
  let s3 := { p2.2 with bodies := p2.2.bodies ++ [coreB] }
  let s4 := generate_disc s3 rand (4 * particles) center2 bulk_vel2 core_mass2 particles
    ("#FF8888")
  s4.prime_accelerations

end OrbitForge

namespace OrbitForge

instance : Zero Vec3 := ⟨Vec3.zero⟩

@[simp] theorem Vec3.zero_eq : (0 : Vec3) = ⟨0, 0, 0⟩ := rfl

instance : AddCommMonoid Vec3 where
  add := (· + ·)
  zero := Vec3.zero
  add_assoc a b c := by
    cases a; cases b; cases c
    simp [Vec3.add_def, add_assoc]
  zero_add a := by cases a; simp [Vec3.add_def]
  add_zero a := by cases a; simp [Vec3.add_def]
  add_comm a b := by
    cases a; cases b
    simp [Vec3.add_def, add_comm]
  nsmul := nsmulRec

/-- A fold that adds one summand per element computes the list sum. -/
theorem foldl_step_sum {α : Type} {M : Type} [AddCommMonoid M]
    (step : M → α → M) (g : α → M) (h : ∀ acc x, step acc x = acc + g x) :
    ∀ (l : List α) (a : M), l.foldl step a = a + (l.map g).sum := by
  intro l
  induction l with
  | nil => intro a; simp
  | cons x xs ih => intro a; simp [h, ih, add_assoc]

/-- Mapping a projection that ignores the zipped-in component through
`zipWith` recovers the projection of the left list. -/
theorem map_zipWith_eq {α : Type} (f : CelestialBody → CelestialBody)
    (h : CelestialBody → α → CelestialBody) (hh : ∀ b a, f (h b a) = f b) :
    ∀ (bs : List CelestialBody) (l : List α), bs.length ≤ l.length →
      (List.zipWith h bs l).map f = bs.map f := by
  intro bs
  induction bs with
  | nil => intro l _; simp
  | cons b rest ih =>
    intro l hl
    cases l with
    | nil => simp at hl
    | cons a as =>
      simp only [List.zipWith_cons_cons, List.map_cons, hh]
      have := ih as (by simpa using hl)
      rw [this]

/-- Mapping a projection that ignores the index through an `enumFrom`-map
recovers the projection of the original list. -/
theorem map_enumFrom_eq (f : CelestialBody → CelestialBody)
    (kfun : ℕ × CelestialBody → CelestialBody)
    (hk : ∀ i b, f (kfun (i, b)) = f b) :
    ∀ (bs : List CelestialBody) (n : ℕ),
      ((List.enumFrom n bs).map kfun).map f = bs.map f := by
  intro bs
  induction bs with
  | nil => intro n; simp
  | cons b rest ih => intro n; simp [hk, ih]

/-- Forget a body's acceleration (the only field the force backends write). -/
def stripAcc (b : CelestialBody) : CelestialBody := { b with acceleration := Vec3.zero }

theorem map_of_map_strip {α : Type} (f : CelestialBody → α)
    (hf : ∀ b, f (stripAcc b) = f b) {bs bs' : List CelestialBody}
    (h : bs'.map stripAcc = bs.map stripAcc) : bs'.map f = bs.map f := by
  calc bs'.map f = (bs'.map stripAcc).map f := by
        rw [List.map_map]
        exact (List.map_congr_left fun b _ => hf b).symm
    _ = (bs.map stripAcc).map f := by rw [h]
    _ = bs.map f := by
        rw [List.map_map]
        exact List.map_congr_left fun b _ => hf b

namespace SimulationState

theorem brute_map_strip (s : SimulationState) :
    s.compute_accelerations_brute.bodies.map stripAcc = s.bodies.map stripAcc := by
  unfold compute_accelerations_brute
  dsimp only
  apply map_zipWith_eq
  · exact fun b a => rfl
  · simp

theorem brute_length (s : SimulationState) :
    s.compute_accelerations_brute.bodies.length = s.bodies.length := by
  unfold compute_accelerations_brute
  simp

theorem barneshut_map_strip (s : SimulationState) :
    s.compute_accelerations_barneshut.bodies.map stripAcc = s.bodies.map stripAcc := by
  unfold compute_accelerations_barneshut
  dsimp only
  apply map_zipWith_eq
  · exact fun b a => rfl
  · simp

theorem barneshut_length (s : SimulationState) :
    s.compute_accelerations_barneshut.bodies.length = s.bodies.length := by
  unfold compute_accelerations_barneshut
  simp

theorem gpu_map_strip (s : SimulationState) (gf : GpuFn) :
    (s.compute_accelerations_gpu gf).bodies.map stripAcc = s.bodies.map stripAcc := by
  unfold compute_accelerations_gpu
  exact map_enumFrom_eq stripAcc _ (fun i b => by dsimp only; split <;> rfl) s.bodies 0

theorem gpu_length (s : SimulationState) (gf : GpuFn) :
    (s.compute_accelerations_gpu gf).bodies.length = s.bodies.length := by
  unfold compute_accelerations_gpu
  simp

theorem compAcc_map_strip (s : SimulationState) :
    s.compute_accelerations.bodies.map stripAcc = s.bodies.map stripAcc := by
  unfold compute_accelerations
  rcases hg : (if 500 < s.bodies.length then s.gpu else none) with _ | gf <;>
    simp only [hg]
  · by_cases h : 50 < s.bodies.length <;>
      simp [h, barneshut_map_strip, brute_map_strip]
  · simp [gpu_map_strip]

theorem compAcc_length (s : SimulationState) :
    s.compute_accelerations.bodies.length = s.bodies.length := by
  unfold compute_accelerations
  rcases hg : (if 500 < s.bodies.length then s.gpu else none) with _ | gf <;>
    simp only [hg]
  · by_cases h : 50 < s.bodies.length <;> simp [h, barneshut_length, brute_length]
  · simp [gpu_length]

theorem brute_eq_setBodies (s : SimulationState) :
    s.compute_accelerations_brute =
      { s with bodies := s.compute_accelerations_brute.bodies } := rfl

theorem barneshut_eq_setBodies (s : SimulationState) :
    s.compute_accelerations_barneshut =
      { s with bodies := s.compute_accelerations_barneshut.bodies } := rfl

theorem gpu_eq_setBodies (s : SimulationState) (gf : GpuFn) :
    s.compute_accelerations_gpu gf =
      { s with bodies := (s.compute_accelerations_gpu gf).bodies } := rfl

/-- The force backends only rewrite the `bodies` field of the state. -/
theorem compAcc_eq_setBodies (s : SimulationState) :
    s.compute_accelerations = { s with bodies := s.compute_accelerations.bodies } := by
  unfold compute_accelerations
  rcases hg : (if 500 < s.bodies.length then s.gpu else none) with _ | gf <;>
    simp only [hg]
  · by_cases h : 50 < s.bodies.length <;>
      simp only [h, if_true, if_false]
    · exact barneshut_eq_setBodies s
    · exact brute_eq_setBodies s
  · exact gpu_eq_setBodies s gf

end SimulationState

end OrbitForge

namespace OrbitForge

theorem map_map_eq (f g : CelestialBody → CelestialBody)
    (hg : ∀ b, f (g b) = f b) (bs : List CelestialBody) :
    (bs.map g).map f = bs.map f := by
  rw [List.map_map]
  exact List.map_congr_left fun b _ => hg b

/-- Forget a body's kinematic state (everything `step_verlet` writes). -/
def kinStrip (b : CelestialBody) : CelestialBody :=
  { b with position := Vec3.zero, velocity := Vec3.zero, acceleration := Vec3.zero,
           fuel := 0 }

namespace SimulationState

theorem step_verlet_map_kin (s : SimulationState) (dt : ℝ) :
    (s.step_verlet dt).bodies.map kinStrip = s.bodies.map kinStrip := by
  unfold step_verlet
  dsimp only
  set bs1 := s.bodies.map (driftB dt) with hbs1
  set s2 := compute_accelerations { s with bodies := bs1 } with hs2
  have hlen : (s2.bodies.map (thrustB dt)).length ≤
      (bs1.map (fun b => b.acceleration)).length := by
    simp [hs2, compAcc_length]
  calc (List.zipWith (kickB dt) (s2.bodies.map (thrustB dt))
          (bs1.map (fun b => b.acceleration))).map kinStrip
      = (s2.bodies.map (thrustB dt)).map kinStrip :=
        map_zipWith_eq kinStrip (kickB dt)
          (fun b a => by unfold kickB; split <;> rfl) _ _ hlen
    _ = s2.bodies.map kinStrip :=
        map_map_eq _ _ (fun b => by
          unfold thrustB
          dsimp only
          split
          · split <;> rfl
          · rfl) _
    _ = bs1.map kinStrip :=
        map_of_map_strip kinStrip (fun b => rfl)
          (compAcc_map_strip { s with bodies := bs1 })
    _ = s.bodies.map kinStrip :=
        map_map_eq _ _ (fun b => by unfold driftB; split <;> rfl) _

theorem step_verlet_length (s : SimulationState) (dt : ℝ) :
    (s.step_verlet dt).bodies.length = s.bodies.length := by
  unfold step_verlet
  dsimp only
  simp [compAcc_length]

theorem step_verlet_eq_setBodies (s : SimulationState) (dt : ℝ) :
    s.step_verlet dt = { s with bodies := (s.step_verlet dt).bodies } := by
  unfold step_verlet
  dsimp only
  rw [compAcc_eq_setBodies { s with bodies := s.bodies.map (driftB dt) }]

end SimulationState

end OrbitForge

namespace OrbitForge

theorem set_getD_self {α : Type} :
    ∀ (l : List α) (i : ℕ) (d : α), l.set i (l.getD i d) = l
  | [], _, _ => by simp
  | a :: t, 0, d => by simp [List.getD]
  | a :: t, n + 1, d => by
    simp only [List.getD_cons_succ, List.set_cons_succ, List.cons.injEq, true_and]
    exact set_getD_self t n d

theorem bget_mem {l : List CelestialBody} {i : ℕ} (h : i < l.length) : bget l i ∈ l := by
  unfold bget
  rw [List.getD_eq_getElem _ _ h]
  exact List.getElem_mem h

theorem bget_default {l : List CelestialBody} {i : ℕ} (h : l.length ≤ i) :
    bget l i = defaultBody := List.getD_eq_default _ _ h

theorem default_mass : defaultBody.mass = 0 := rfl

theorem default_radius : defaultBody.radius = 0 := rfl

theorem bget_mass_nonneg {l : List CelestialBody} {i : ℕ}
    (hq : ∀ b ∈ l, 0 < b.mass ∧ 0 < b.radius) : 0 ≤ (bget l i).mass := by
  rcases lt_or_ge i l.length with h | h
  · exact le_of_lt (hq _ (bget_mem h)).1
  · rw [bget_default h, default_mass]

theorem bget_radius_nonneg {l : List CelestialBody} {i : ℕ}
    (hq : ∀ b ∈ l, 0 < b.mass ∧ 0 < b.radius) : 0 ≤ (bget l i).radius := by
  rcases lt_or_ge i l.length with h | h
  · exact le_of_lt (hq _ (bget_mem h)).2
  · rw [bget_default h, default_radius]

/-- `cbrt` of a positive real is positive. -/
theorem cbrt_pos {x : ℝ} (hx : 0 < x) : 0 < cbrt x :=
  Real.rpow_pos_of_pos hx _

theorem foldl_preserves {α β : Type} (P : β → Prop) (f : β → α → β)
    (hf : ∀ st x, P st → P (f st x)) :
    ∀ (l : List α) (st : β), P st → P (l.foldl f st) := by
  intro l
  induction l with
  | nil => intro st h; exact h
  | cons x xs ih => intro st h; exact ih _ (hf st x h)

theorem foldl_range_iterate {β : Type} (f : β → β) :
    ∀ (n : ℕ) (x : β), (List.range n).foldl (fun a _ => f a) x = f^[n] x := by
  intro n
  induction n with
  | zero => intro x; simp
  | succ k ih =>
    intro x
    rw [List.range_succ, List.foldl_append, ih, Function.iterate_succ_apply']
    rfl

end OrbitForge

namespace OrbitForge

theorem map_set_bget {α : Type} (f : CelestialBody → α) (bs : List CelestialBody)
    (i : ℕ) (b : CelestialBody) (h : f b = f (bget bs i)) :
    (bs.set i b).map f = bs.map f := by
  rw [List.map_set, h,
    show f (bget bs i) = (bs.map f).getD i (f defaultBody) from
      (List.getD_map bs defaultBody f).symm]
  exact set_getD_self _ _ _

theorem processPair_map_id (st : ScanState) (i j : ℕ) :
    (processPair st i j).1.map (fun b => b.id) = st.1.map (fun b => b.id) := by
  unfold processPair
  dsimp only
  split
  · rfl
  · split
    · exact map_set_bget _ _ _ _ rfl
    · rfl

theorem processPair_length (st : ScanState) (i j : ℕ) :
    (processPair st i j).1.length = st.1.length := by
  unfold processPair
  dsimp only
  split
  · rfl
  · split
    · simp
    · rfl

theorem processPair_ab_length (st : ScanState) (i j : ℕ) :
    (processPair st i j).2.1.length = st.2.1.length := by
  unfold processPair
  dsimp only
  split
  · rfl
  · split
    · simp
    · rfl

/-- Positivity of mass and radius is preserved by a single collision-pair
step: a merged body has the sum of two masses (one of them a live body's)
and the cube-root-combined radius. -/
theorem processPair_Qb (st : ScanState) (i j : ℕ)
    (hq : ∀ b ∈ st.1, 0 < b.mass ∧ 0 < b.radius) :
    ∀ b ∈ (processPair st i j).1, 0 < b.mass ∧ 0 < b.radius := by
  unfold processPair
  dsimp only
  split
  · exact hq
  · split
    · -- merge branch
      set bs := st.1 with hbs
      set si := if (bget bs j).mass ≤ (bget bs i).mass then i else j with hsi
      intro b hb
      by_cases hlt : si < bs.length
      · rcases List.mem_or_eq_of_mem_set hb with hmem | rfl
        · exact hq _ hmem
        · constructor
          · have h1 : 0 < (bget bs si).mass := (hq _ (bget_mem hlt)).1
            have h2 : 0 ≤ (bget bs (if (bget bs j).mass ≤ (bget bs i).mass then j else i)).mass :=
              bget_mass_nonneg hq
            dsimp only
            positivity
          · have h1 : 0 < (bget bs si).radius := (hq _ (bget_mem hlt)).2
            have h2 : 0 ≤ (bget bs (if (bget bs j).mass ≤ (bget bs i).mass then j else i)).radius :=
              bget_radius_nonneg hq
            dsimp only
            apply cbrt_pos
            positivity
      · rw [List.set_eq_of_length_le (le_of_not_lt hlt)] at hb
        exact hq _ hb
    · exact hq

theorem innerLoop_pres {P : ScanState → Prop}
    (hP : ∀ st i j, P st → P (processPair st i j)) (n i : ℕ) (st : ScanState)
    (h : P st) : P (innerLoop n i st) :=
  foldl_preserves P _ (fun st2 j h2 => hP st2 i j h2) _ st h

theorem scanLoop_pres {P : ScanState → Prop}
    (hP : ∀ st i j, P st → P (processPair st i j)) (n : ℕ) (st : ScanState)
    (h : P st) : P (scanLoop n st) := by
  unfold scanLoop
  apply foldl_preserves P _ _ _ _ h
  intro st2 i h2
  split
  · exact h2
  · exact innerLoop_pres hP n i st2 h2

theorem removeDesc_succ (i : ℕ) (bs : List CelestialBody) (ab : List Bool) :
    removeDesc (i + 1) bs ab =
      removeDesc i (if ab.getD i false then bs.eraseIdx i else bs) ab := rfl

theorem removeDesc_sublist :
    ∀ (k : ℕ) (bs : List CelestialBody) (ab : List Bool),
      (removeDesc k bs ab).Sublist bs := by
  intro k
  induction k with
  | zero => intro bs ab; exact List.Sublist.refl _
  | succ i ih =>
    intro bs ab
    rw [removeDesc_succ]
    refine (ih _ ab).trans ?_
    split
    · exact List.eraseIdx_sublist _ _
    · exact List.Sublist.refl _

/-- The claim-side description of the removal phase: keep exactly the bodies
whose `absorbed` flag is false. -/
def keepUnabsorbed (bs : List CelestialBody) (ab : List Bool) : List CelestialBody :=
  (bs.zip ab).filterMap (fun p => if p.2 = true then none else some p.1)

theorem removeDesc_drop_extra :
    ∀ (k : ℕ) (bs : List CelestialBody) (ab ab2 : List Bool), k ≤ ab.length →
      removeDesc k bs (ab ++ ab2) = removeDesc k bs ab := by
  intro k
  induction k with
  | zero => intro bs ab ab2 _; rfl
  | succ i ih =>
    intro bs ab ab2 h
    rw [removeDesc_succ, removeDesc_succ,
      List.getD_append _ _ _ _ (Nat.lt_of_succ_le h), ih _ _ _ (Nat.le_of_succ_le h)]

theorem removeDesc_append :
    ∀ (k : ℕ) (xs ys : List CelestialBody) (ab : List Bool), k ≤ xs.length →
      removeDesc k (xs ++ ys) ab = removeDesc k xs ab ++ ys := by
  intro k
  induction k with
  | zero => intro xs ys ab _; rfl
  | succ i ih =>
    intro xs ys ab h
    have hi : i < xs.length := Nat.lt_of_succ_le h
    rw [removeDesc_succ, removeDesc_succ]
    by_cases hab : ab.getD i false
    · rw [if_pos hab, if_pos hab, List.eraseIdx_append_of_lt_length hi, ih]
      rw [List.length_eraseIdx_of_lt hi]
      omega
    · rw [if_neg hab, if_neg hab, ih _ _ _ (Nat.le_of_succ_le h)]

theorem removeDesc_eq_keep :
    ∀ (bs : List CelestialBody) (ab : List Bool), ab.length = bs.length →
      removeDesc bs.length bs ab = keepUnabsorbed bs ab := by
  intro bs
  induction bs using List.reverseRecOn with
  | nil =>
    intro ab h
    rw [List.length_eq_zero.mp h]
    rfl
  | append_singleton xs b ih =>
    intro ab h
    rcases ab.eq_nil_or_concat with h0 | ⟨ab', a, rfl⟩
    · subst h0; simp at h
    · rw [List.concat_eq_append] at h ⊢
      have hlen : ab'.length = xs.length := by simpa using h
      have hL : (xs ++ [b]).length = xs.length + 1 := by simp
      rw [hL, removeDesc_succ]
      have hget : (ab' ++ [a]).getD xs.length false = a := by
        rw [← hlen, List.getD_append_right _ _ _ _ (le_refl _)]
        simp
      have herase : (xs ++ [b]).eraseIdx xs.length = xs := by
        rw [List.eraseIdx_append_of_length_le (le_refl _)]
        simp
      have hkeep : keepUnabsorbed (xs ++ [b]) (ab' ++ [a]) =
          keepUnabsorbed xs ab' ++ (if a = true then [] else [b]) := by
        unfold keepUnabsorbed
        rw [List.zip_append hlen.symm, List.filterMap_append]
        cases a <;> simp
      rw [hget, hkeep]
      by_cases ha : a = true
      · rw [if_pos ha, herase,
          removeDesc_drop_extra _ _ _ _ (le_of_eq hlen.symm), ih ab' hlen, if_pos ha,
          List.append_nil]
      · rw [if_neg ha, removeDesc_append _ _ _ _ (le_refl _),
          removeDesc_drop_extra _ _ _ _ (le_of_eq hlen.symm), ih ab' hlen, if_neg ha]

end OrbitForge

namespace OrbitForge

theorem scanLoop_bodies_length (n : ℕ) (st : ScanState) :
    (scanLoop n st).1.length = st.1.length :=
  scanLoop_pres (P := fun st2 => st2.1.length = st.1.length)
    (fun st2 i j h => (processPair_length st2 i j).trans h) n st rfl

theorem scanLoop_ab_length (n : ℕ) (st : ScanState) :
    (scanLoop n st).2.1.length = st.2.1.length :=
  scanLoop_pres (P := fun st2 => st2.2.1.length = st.2.1.length)
    (fun st2 i j h => (processPair_ab_length st2 i j).trans h) n st rfl

theorem scanLoop_map_id (n : ℕ) (st : ScanState) :
    (scanLoop n st).1.map (fun b => b.id) = st.1.map (fun b => b.id) :=
  scanLoop_pres (P := fun st2 => st2.1.map (fun b => b.id) = st.1.map (fun b => b.id))
    (fun st2 i j h => (processPair_map_id st2 i j).trans h) n st rfl

theorem scanLoop_Qb (n : ℕ) (st : ScanState)
    (h : ∀ b ∈ st.1, 0 < b.mass ∧ 0 < b.radius) :
    ∀ b ∈ (scanLoop n st).1, 0 < b.mass ∧ 0 < b.radius :=
  scanLoop_pres (P := fun st2 => ∀ b ∈ st2.1, 0 < b.mass ∧ 0 < b.radius)
    processPair_Qb n st h

namespace SimulationState

/-- `check_collisions` removes, after the scan, exactly the bodies whose
`absorbed` flag is set. -/
theorem check_collisions_bodies_eq_keep (s : SimulationState) :
    (s.check_collisions).1.bodies =
      keepUnabsorbed
        (scanLoop s.bodies.length (s.bodies, List.replicate s.bodies.length false, [])).1
        (scanLoop s.bodies.length (s.bodies, List.replicate s.bodies.length false, [])).2.1 := by
  unfold check_collisions
  dsimp only
  set st := scanLoop s.bodies.length (s.bodies, List.replicate s.bodies.length false, [])
    with hst
  have h1 : st.1.length = s.bodies.length := by
    rw [hst, scanLoop_bodies_length]
  have h2 : st.2.1.length = st.1.length := by
    rw [hst, scanLoop_ab_length, h1]
    simp
  rw [← h1]
  exact removeDesc_eq_keep st.1 st.2.1 h2

theorem check_collisions_tick (s : SimulationState) :
    (s.check_collisions).1.tick = s.tick := rfl

theorem check_collisions_paused (s : SimulationState) :
    (s.check_collisions).1.paused = s.paused := rfl

theorem substep_tick (s : SimulationState) (dt : ℝ) :
    (s.substep dt).1.tick = s.tick := by
  unfold substep
  rw [check_collisions_tick, step_verlet_eq_setBodies]

/-- The per-substep transition of `step`, accumulating collision events. -/
def substepAcc (dt : ℝ) (p : SimulationState × List CollisionEvent) :
    SimulationState × List CollisionEvent :=
  let r := p.1.substep dt
  (r.1, p.2 ++ r.2)

/-- The trail-recording pass at the end of `step`. -/
def trailPass (st : SimulationState) : SimulationState :=
  { st with bodies := st.bodies.map (fun b => if b.is_fixed then b else b.record_trail) }

theorem substepAcc_iterate_tick (dt : ℝ) (n : ℕ)
    (p : SimulationState × List CollisionEvent) :
    ((substepAcc dt)^[n] p).1.tick = p.1.tick := by
  induction n generalizing p with
  | zero => rfl
  | succ k ih =>
    rw [Function.iterate_succ_apply, ih]
    exact substep_tick _ _

end SimulationState

end OrbitForge

namespace OrbitForge

theorem step_foldl_eq_iterate (s : SimulationState) (dtv : ℝ) (S : ℕ) :
    (List.range S).foldl (fun acc (_ : ℕ) =>
        let r := acc.1.substep dtv
        (r.1, acc.2 ++ r.2)) (s, ([] : List CollisionEvent)) =
      (SimulationState.substepAcc dtv)^[S] (s, []) :=
  foldl_range_iterate _ S _

/-- C10: for a state with an empty body list, `step` is a complete no-op
(even when not paused): it returns no collisions and the state unchanged,
so the tick counter does not advance. -/
theorem claim_C10_empty_step_noop (s : SimulationState) (hb : s.bodies = []) :
    SimulationState.step s = (s, []) := by
  unfold SimulationState.step
  rw [hb]
  simp

/-- Witness for C10 at the freshly constructed (empty) state. -/
theorem claim_C10_empty_step_noop_witness :
    SimulationState.step SimulationState.new = (SimulationState.new, []) :=
  claim_C10_empty_step_noop SimulationState.new rfl

/-- C2: a non-paused `step` on a nonempty body list performs exactly
`S = ceil(speed_multiplier)` Verlet substeps of timestep
`h = dt·speed_multiplier/S`, each followed by a collision pass
(`substepAcc`), then records a trail point for every non-fixed body exactly
when the pre-increment tick is even, and increments the tick by one. -/
theorem claim_C2_step_substeps (s : SimulationState)
    (hp : s.paused = false) (hb : s.bodies ≠ []) :
    (SimulationState.step s =
      (let S := (⌈s.speed_multiplier⌉).toNat
       let h := s.dt * s.speed_multiplier / (S : ℝ)
       let q := (SimulationState.substepAcc h)^[S] (s, [])
       ({ (if s.tick % 2 = 0 then SimulationState.trailPass q.1 else q.1) with
           tick := s.tick + 1 }, q.2))) ∧
    (SimulationState.step s).1.tick = s.tick + 1 := by
  have hcond : (s.paused || s.bodies.isEmpty) = false := by
    simp [hp, hb]
  have hmain : SimulationState.step s =
      (let S := (⌈s.speed_multiplier⌉).toNat
       let h := s.dt * s.speed_multiplier / (S : ℝ)
       let q := (SimulationState.substepAcc h)^[S] (s, [])
       ({ (if s.tick % 2 = 0 then SimulationState.trailPass q.1 else q.1) with
           tick := s.tick + 1 }, q.2)) := by
    unfold SimulationState.step
    rw [hcond]
    simp only [Bool.false_eq_true, if_false]
    rw [step_foldl_eq_iterate]
    have htick : ((SimulationState.substepAcc
        (s.dt * s.speed_multiplier / ((⌈s.speed_multiplier⌉).toNat : ℝ)))^[
          (⌈s.speed_multiplier⌉).toNat] (s, [])).1.tick = s.tick :=
      SimulationState.substepAcc_iterate_tick _ _ _
    rw [htick]
    by_cases ht : s.tick % 2 = 0
    · simp only [ht, if_true]
      rfl
    · simp only [ht, if_false]
      rw [htick]
  exact ⟨hmain, by rw [hmain]⟩

/-- A small concrete one-body state used by witnesses. -/
def exState : SimulationState :=
  { SimulationState.new with
    bodies := [CelestialBody.new 0 ("B0") ⟨0, 0, 0⟩ ⟨0, 0, 0⟩ 1 1 ("#FFF") false] }

/-- Witness for C2 at a concrete non-paused one-body state. -/
theorem claim_C2_step_substeps_witness :
    exState.paused = false ∧ exState.bodies ≠ [] ∧
      (SimulationState.step exState).1.tick = exState.tick + 1 :=
  ⟨rfl, by simp [exState], (claim_C2_step_substeps exState rfl (by simp [exState])).2⟩

end OrbitForge

namespace OrbitForge

/-- C1: in a collision pass, when the pair `(i, j)` (`i < j`, both live,
neither absorbed) overlaps — unsoftened Euclidean distance strictly below the
radius sum — the merge keeps the heavier body (the lower index on a tie) as
survivor with summed mass, momentum-conserving (mass-weighted) velocity,
mass-weighted position, volume-conserving radius and inherited fixedness,
emits the corresponding `CollisionEvent`, and marks the other body absorbed;
after the scan, `check_collisions` removes exactly the absorbed bodies. -/
theorem claim_C1_collision_merge (bs : List CelestialBody) (ab : List Bool)
    (evs : List CollisionEvent) (i j : ℕ)
    (hij : i < j) (hj : j < bs.length)
    (habi : ab.getD i false = false) (habj : ab.getD j false = false)
    (hover : Real.sqrt (normSq ((bget bs j).position - (bget bs i).position)) <
      (bget bs i).radius + (bget bs j).radius) :
    (processPair (bs, ab, evs) i j =
      (let surv := if (bget bs i).mass < (bget bs j).mass then j else i
       let absd := if (bget bs i).mass < (bget bs j).mass then i else j
       let ms := (bget bs surv).mass
       let ma := (bget bs absd).mass
       let M := ms + ma
       let newV : Vec3 :=
         ⟨(ms * (bget bs surv).velocity.x + ma * (bget bs absd).velocity.x) / M,
          (ms * (bget bs surv).velocity.y + ma * (bget bs absd).velocity.y) / M,
          (ms * (bget bs surv).velocity.z + ma * (bget bs absd).velocity.z) / M⟩
       let newX : Vec3 :=
         ⟨(ms * (bget bs surv).position.x + ma * (bget bs absd).position.x) / M,
          (ms * (bget bs surv).position.y + ma * (bget bs absd).position.y) / M,
          (ms * (bget bs surv).position.z + ma * (bget bs absd).position.z) / M⟩
       let newR := cbrt ((bget bs surv).radius ^ 3 + (bget bs absd).radius ^ 3)
       (bs.set surv { bget bs surv with
          mass := M, velocity := newV, position := newX, radius := newR,
          is_fixed := (bget bs surv).is_fixed || (bget bs absd).is_fixed },
        ab.set absd true,
        evs ++ [⟨(bget bs absd).id, (bget bs surv).id, newX, M⟩]))) ∧
    (∀ s : SimulationState,
      (s.check_collisions).1.bodies =
        keepUnabsorbed
          (scanLoop s.bodies.length (s.bodies, List.replicate s.bodies.length false, [])).1
          (scanLoop s.bodies.length (s.bodies, List.replicate s.bodies.length false, [])).2.1 ∧
      (s.check_collisions).2 =
        (scanLoop s.bodies.length (s.bodies, List.replicate s.bodies.length false, [])).2.2) := by
  constructor
  · unfold processPair
    dsimp only
    unfold normSq at hover
    have habj2 : ¬(ab.getD j false = true) := by rw [habj]; simp
    rw [if_neg habj2, if_pos hover]
    by_cases hm : (bget bs j).mass ≤ (bget bs i).mass
    · simp only [if_pos hm, if_neg (not_lt.mpr hm), Prod.mk.injEq, and_true, true_and]
      congr 1
      have hr : (bget bs i).radius * (bget bs i).radius * (bget bs i).radius +
          (bget bs j).radius * (bget bs j).radius * (bget bs j).radius =
          (bget bs i).radius ^ 3 + (bget bs j).radius ^ 3 := by ring
      have hfix : (if (bget bs j).is_fixed = true then true else (bget bs i).is_fixed) =
          ((bget bs i).is_fixed || (bget bs j).is_fixed) := by
        cases (bget bs j).is_fixed <;> simp
      rw [hr, hfix]
    · have hlt : (bget bs i).mass < (bget bs j).mass := not_le.mp hm
      simp only [if_neg hm, if_pos hlt, Prod.mk.injEq, and_true, true_and]
      congr 1
      have hr : (bget bs j).radius * (bget bs j).radius * (bget bs j).radius +
          (bget bs i).radius * (bget bs i).radius * (bget bs i).radius =
          (bget bs j).radius ^ 3 + (bget bs i).radius ^ 3 := by ring
      have hfix : (if (bget bs i).is_fixed = true then true else (bget bs j).is_fixed) =
          ((bget bs j).is_fixed || (bget bs i).is_fixed) := by
        cases (bget bs i).is_fixed <;> simp
      rw [hr, hfix]
  · intro s
    exact ⟨SimulationState.check_collisions_bodies_eq_keep s, rfl⟩

end OrbitForge

namespace OrbitForge

/-- Two overlapping concrete bodies used by the C1 witness. -/
def w1bs : List CelestialBody :=
  [CelestialBody.new 0 ("A") ⟨0, 0, 0⟩ ⟨0, 0, 0⟩ 2 3 ("#111111") false,
   CelestialBody.new 1 ("B") ⟨4, 0, 0⟩ ⟨0, 0, 0⟩ 1 3 ("#222222") false]

/-- Witness for C1 at a concrete overlapping pair (distance 4, radius sum 6). -/
theorem claim_C1_collision_merge_witness :
    1 < w1bs.length ∧
    Real.sqrt (normSq ((bget w1bs 1).position - (bget w1bs 0).position)) <
      (bget w1bs 0).radius + (bget w1bs 1).radius ∧
    (SimulationState.check_collisions exState).2 =
      (scanLoop exState.bodies.length
        (exState.bodies, List.replicate exState.bodies.length false, [])).2.2 := by
  have hj : 1 < w1bs.length := by simp [w1bs]
  have h16 : normSq ((bget w1bs 1).position - (bget w1bs 0).position) = 16 := by
    simp [w1bs, bget, normSq, CelestialBody.new]
    norm_num
  have hover : Real.sqrt (normSq ((bget w1bs 1).position - (bget w1bs 0).position)) <
      (bget w1bs 0).radius + (bget w1bs 1).radius := by
    rw [h16, show (16 : ℝ) = 4 ^ 2 by norm_num,
      Real.sqrt_sq (by norm_num : (0 : ℝ) ≤ 4)]
    simp [w1bs, bget, CelestialBody.new]
    norm_num
  exact ⟨hj, hover,
    ((claim_C1_collision_merge w1bs [false, false] [] 0 1 (by norm_num) hj rfl rfl
      hover).2 exState).2⟩

end OrbitForge

namespace OrbitForge

/-- Claim-side kinetic energy: `Σ ½·m·|v|²`. -/
def keSpec (s : SimulationState) : ℝ :=
  (s.bodies.map (fun b => 0.5 * b.mass * normSq b.velocity)).sum

/-- One unordered-pair potential term as the code computes it: `0` when the
pair distance does not exceed `0.001`, otherwise `−G·mᵢ·mⱼ/dist`. -/
def pairTerm (s : SimulationState) (i j : ℕ) : ℝ :=
  let diff := (bget s.bodies j).position - (bget s.bodies i).position
  let dist := Real.sqrt (diff.x * diff.x + diff.y * diff.y + diff.z * diff.z)
  if 0.001 < dist then -(s.g * (bget s.bodies i).mass * (bget s.bodies j).mass / dist)
  else 0

/-- Claim-side potential energy with the near-pair guard (pairs at distance
`≤ 0.001` contribute nothing). -/
def peSpecGuarded (s : SimulationState) : ℝ :=
  ((List.range s.bodies.length).map (fun i =>
    ((List.range' (i + 1) (s.bodies.length - (i + 1))).map (pairTerm s i)).sum)).sum

/-- The potential-energy formula exactly as the claim words it: every
unordered pair contributes `−G·mᵢ·mⱼ / max(dist, 0.001)`. -/
def peSpecFloor (s : SimulationState) : ℝ :=
  ((List.range s.bodies.length).map (fun i =>
    ((List.range' (i + 1) (s.bodies.length - (i + 1))).map (fun j =>
      -(s.g * (bget s.bodies i).mass * (bget s.bodies j).mass /
        max (Real.sqrt (normSq ((bget s.bodies j).position - (bget s.bodies i).position)))
          0.001))).sum)).sum

/-- C5 (amended): the energy reported by `to_frame` has
`kinetic = Σ ½·m·|v|²`, `potential` the guarded pair sum (a pair at distance
`≤ 0.001` contributes `0`, not a floored term), and `total` their sum. -/
theorem claim_C5_energy_amended (s : SimulationState) :
    (s.to_frame).energy = ⟨keSpec s, peSpecGuarded s, keSpec s + peSpecGuarded s⟩ := by
  show s.compute_energies = _
  unfold SimulationState.compute_energies
  dsimp only
  have hke : s.bodies.foldl (fun acc b => acc + 0.5 * b.mass *
      (b.velocity.x * b.velocity.x + b.velocity.y * b.velocity.y +
        b.velocity.z * b.velocity.z)) 0 = keSpec s := by
    have := foldl_step_sum
      (fun acc b => acc + 0.5 * b.mass *
        (b.velocity.x * b.velocity.x + b.velocity.y * b.velocity.y +
          b.velocity.z * b.velocity.z))
      (fun b => 0.5 * b.mass *
        (b.velocity.x * b.velocity.x + b.velocity.y * b.velocity.y +
          b.velocity.z * b.velocity.z))
      (fun acc x => rfl) s.bodies 0
    rw [this, zero_add]
    rfl
  have hinner : ∀ (a : ℝ) (i : ℕ),
      (List.range' (i + 1) (s.bodies.length - (i + 1))).foldl (fun acc2 j =>
        let diff := (bget s.bodies j).position - (bget s.bodies i).position
        let dist := Real.sqrt (diff.x * diff.x + diff.y * diff.y + diff.z * diff.z)
        if 0.001 < dist then
          acc2 - s.g * (bget s.bodies i).mass * (bget s.bodies j).mass / dist
        else acc2) a =
      a + ((List.range' (i + 1) (s.bodies.length - (i + 1))).map (pairTerm s i)).sum := by
    intro a i
    exact foldl_step_sum _ (pairTerm s i)
      (fun acc j => by unfold pairTerm; dsimp only; split <;> ring) _ a
  have hpe : (List.range s.bodies.length).foldl (fun acc i =>
      (List.range' (i + 1) (s.bodies.length - (i + 1))).foldl (fun acc2 j =>
        let diff := (bget s.bodies j).position - (bget s.bodies i).position
        let dist := Real.sqrt (diff.x * diff.x + diff.y * diff.y + diff.z * diff.z)
        if 0.001 < dist then
          acc2 - s.g * (bget s.bodies i).mass * (bget s.bodies j).mass / dist
        else acc2) acc) 0 = peSpecGuarded s := by
    have := foldl_step_sum
      (fun acc i =>
        (List.range' (i + 1) (s.bodies.length - (i + 1))).foldl (fun acc2 j =>
          let diff := (bget s.bodies j).position - (bget s.bodies i).position
          let dist := Real.sqrt (diff.x * diff.x + diff.y * diff.y + diff.z * diff.z)
          if 0.001 < dist then
            acc2 - s.g * (bget s.bodies i).mass * (bget s.bodies j).mass / dist
          else acc2) acc)
      (fun i => ((List.range' (i + 1) (s.bodies.length - (i + 1))).map (pairTerm s i)).sum)
      (fun acc i => hinner acc i) (List.range s.bodies.length) 0
    rw [this, zero_add]
    rfl
  rw [hke, hpe]

/-- Two coincident unit-mass bodies (the C5 counterexample state). -/
def c5State : SimulationState :=
  { SimulationState.new with bodies :=
      [CelestialBody.new 0 ("P") ⟨0, 0, 0⟩ ⟨0, 0, 0⟩ 1 1 ("#000001") false,
       CelestialBody.new 1 ("Q") ⟨0, 0, 0⟩ ⟨0, 0, 0⟩ 1 1 ("#000002") false] }

/-- C5 counterexample: on two coincident bodies the code reports potential
`0` (the pair is skipped), while the claim's floored formula demands
`−G·m₁·m₂/0.001 = −100000`; the two disagree. -/
theorem claim_C5_energy_counterexample :
    (SimulationState.to_frame c5State).energy.potential = 0 ∧
    peSpecFloor c5State = -100000 ∧
    (SimulationState.to_frame c5State).energy.potential ≠ peSpecFloor c5State := by
  have h1 : (SimulationState.to_frame c5State).energy.potential = 0 := by
    show (SimulationState.compute_energies c5State).potential = 0
    unfold SimulationState.compute_energies
    simp [c5State, bget, CelestialBody.new, SimulationState.new,
      List.range_succ, List.range']
  have h2 : peSpecFloor c5State = -100000 := by
    unfold peSpecFloor
    simp [c5State, bget, CelestialBody.new, SimulationState.new, normSq,
      List.range_succ, List.range']
    norm_num
  exact ⟨h1, h2, by rw [h1, h2]; norm_num⟩

end OrbitForge

namespace OrbitForge

theorem applyUpdate_acceleration (fields : BodyUpdate) (b : CelestialBody) :
    (applyUpdate fields b).acceleration = b.acceleration := by
  unfold applyUpdate
  rcases fields with ⟨m, r, c, nm, fx⟩
  cases m <;> cases r <;> cases c <;> cases nm <;> cases fx <;> rfl

theorem updateFirst_map_acc (id : ℕ) (f : CelestialBody → CelestialBody)
    (hf : ∀ b, (f b).acceleration = b.acceleration) :
    ∀ l : List CelestialBody,
      (updateFirst id f l).map (fun b => b.acceleration) =
        l.map (fun b => b.acceleration) := by
  intro l
  induction l with
  | nil => rfl
  | cons b rest ih =>
    unfold updateFirst
    split
    · simp [hf]
    · simp [ih]

/-- C6 (amended): `add_body` re-primes accelerations through the backend
selector on the grown body set, and `import_state` re-primes the imported
state; but the `remove_body` and `update_body` commands leave every
remaining body's recorded acceleration exactly as it was (stale until the
next force evaluation). -/
theorem claim_C6_reprime_amended :
    (∀ (s : SimulationState) (b : CelestialBody),
      (s.add_body b).1 =
        SimulationState.compute_accelerations { s with bodies := s.bodies ++ [b] }) ∧
    (∀ (cur imported : SimulationState), ∃ ns : SimulationState,
      import_state cur imported = SimulationState.prime_accelerations ns) ∧
    (∀ (s : SimulationState) (id : ℕ),
      (remove_body_cmd s id).bodies.map (fun b => b.acceleration) =
        (s.bodies.filter (fun b => b.id ≠ id)).map (fun b => b.acceleration)) ∧
    (∀ (s : SimulationState) (id : ℕ) (fields : BodyUpdate),
      (update_body_cmd s id fields).bodies.map (fun b => b.acceleration) =
        s.bodies.map (fun b => b.acceleration)) := by
  refine ⟨fun s b => rfl, fun cur imported => ⟨_, rfl⟩, fun s id => rfl, ?_⟩
  intro s id fields
  exact updateFirst_map_acc id _ (applyUpdate_acceleration fields) s.bodies

/-- The C6 counterexample state: two unit masses one unit apart with zero
softening, accelerations primed. -/
def c6Base : SimulationState :=
  { SimulationState.new with softening := 0, bodies :=
      [CelestialBody.new 0 ("R") ⟨0, 0, 0⟩ ⟨0, 0, 0⟩ 1 1 ("#000003") false,
       CelestialBody.new 1 ("S") ⟨1, 0, 0⟩ ⟨0, 0, 0⟩ 1 1 ("#000004") false] }

def c6After : SimulationState :=
  remove_body_cmd (SimulationState.prime_accelerations c6Base) 1

/-- C6 counterexample: after `remove_body`, the surviving body's recorded
acceleration (`(100,0,0)`, from the removed neighbour) differs from what the
force-backend selector computes for the remaining set (`(0,0,0)`) — the
command does not re-prime. -/
theorem claim_C6_reprime_counterexample :
    (bget c6After.bodies 0).acceleration = ⟨100, 0, 0⟩ ∧
    (bget (SimulationState.compute_accelerations c6After).bodies 0).acceleration =
      ⟨0, 0, 0⟩ ∧
    (bget c6After.bodies 0).acceleration ≠
      (bget (SimulationState.compute_accelerations c6After).bodies 0).acceleration := by
  have h1 : (bget c6After.bodies 0).acceleration = ⟨100, 0, 0⟩ := by
    unfold c6After c6Base remove_body_cmd
    unfold SimulationState.remove_body SimulationState.prime_accelerations
      SimulationState.compute_accelerations SimulationState.compute_accelerations_brute
    norm_num [SimulationState.new, CelestialBody.new, bget, List.range_succ,
      Real.sqrt_one]
  have h2 : (bget (SimulationState.compute_accelerations c6After).bodies 0).acceleration =
      ⟨0, 0, 0⟩ := by
    unfold SimulationState.compute_accelerations SimulationState.compute_accelerations_brute
    unfold c6After c6Base remove_body_cmd
    unfold SimulationState.remove_body SimulationState.prime_accelerations
      SimulationState.compute_accelerations SimulationState.compute_accelerations_brute
    norm_num [SimulationState.new, CelestialBody.new, bget, List.range_succ,
      Real.sqrt_one]
  refine ⟨h1, h2, ?_⟩
  rw [h1, h2]
  intro hcon
  rw [Vec3.mk.injEq] at hcon
  norm_num at hcon

end OrbitForge

namespace OrbitForge

theorem map_of_map_eq {α : Type} (g : CelestialBody → CelestialBody)
    (f : CelestialBody → α) (hf : ∀ b, f (g b) = f b)
    {bs bs' : List CelestialBody} (h : bs'.map g = bs.map g) :
    bs'.map f = bs.map f := by
  calc bs'.map f = (bs'.map g).map f := by
        rw [List.map_map]
        exact (List.map_congr_left fun b _ => hf b).symm
    _ = (bs.map g).map f := by rw [h]
    _ = bs.map f := by
        rw [List.map_map]
        exact List.map_congr_left fun b _ => hf b

namespace SimulationState

theorem step_verlet_dt (s : SimulationState) (d : ℝ) : (s.step_verlet d).dt = s.dt := by
  rw [step_verlet_eq_setBodies]

theorem step_verlet_map_id (s : SimulationState) (d : ℝ) :
    (s.step_verlet d).bodies.map (fun b => b.id) = s.bodies.map (fun b => b.id) :=
  map_of_map_eq kinStrip (fun b => b.id) (fun b => rfl) (step_verlet_map_kin s d)

theorem find_body_isSome_congr {s t : SimulationState}
    (h : t.bodies.map (fun b => b.id) = s.bodies.map (fun b => b.id)) (id : ℕ) :
    (t.find_body id).isSome = (s.find_body id).isSome := by
  have hiff : ((t.find_body id).isSome = true) ↔ ((s.find_body id).isSome = true) := by
    unfold find_body
    rw [List.find?_isSome, List.find?_isSome]
    constructor
    · rintro ⟨x, hx, hpx⟩
      have hmm : id ∈ s.bodies.map (fun b => b.id) := by
        rw [← h]
        exact List.mem_map.mpr ⟨x, hx, by simpa using hpx⟩
      rcases List.mem_map.mp hmm with ⟨y, hy, hyid⟩
      exact ⟨y, hy, by simpa using hyid⟩
    · rintro ⟨x, hx, hpx⟩
      have hmm : id ∈ t.bodies.map (fun b => b.id) := by
        rw [h]
        exact List.mem_map.mpr ⟨x, hx, by simpa using hpx⟩
      rcases List.mem_map.mp hmm with ⟨y, hy, hyid⟩
      exact ⟨y, hy, by simpa using hyid⟩
  rcases hb : (t.find_body id).isSome <;> rcases hc : (s.find_body id).isSome <;>
    simp_all

/-- The trajectory a faithful reading of the claim predicts: the position of
the tracked body after `m+1` Verlet substeps of the fork at the fixed base
timestep. -/
def orbitPos (d0 : ℝ) (st : SimulationState) (id : ℕ) (m : ℕ) : Vec3 :=
  match ((fun u : SimulationState => u.step_verlet d0)^[m + 1] st).find_body id with
  | some b => b.position
  | none => Vec3.zero

theorem predictLoop_absent (id : ℕ) :
    ∀ (k : ℕ) (st : SimulationState), st.find_body id = none →
      predictLoop k st id = [] := by
  intro k
  cases k with
  | zero => intro st h; rfl
  | succ m =>
    intro st h
    unfold predictLoop
    dsimp only
    have hsome : ((st.step_verlet st.dt).find_body id).isSome =
        (st.find_body id).isSome := find_body_isSome_congr (step_verlet_map_id st st.dt) id
    rw [h] at hsome
    simp only [Option.isSome_none] at hsome
    have hnone2 : (st.step_verlet st.dt).find_body id = none := by
      rcases ho : (st.step_verlet st.dt).find_body id with _ | b
      · rfl
      · rw [ho] at hsome
        simp at hsome
    rw [hnone2]

theorem predictLoop_present (id : ℕ) (d0 : ℝ) :
    ∀ (k : ℕ) (st : SimulationState), st.dt = d0 → st.find_body id ≠ none →
      predictLoop k st id = (List.range k).map (orbitPos d0 st id) := by
  intro k
  induction k with
  | zero => intro st _ _; rfl
  | succ m ih =>
    intro st hdt hfind
    have hsome : ((st.step_verlet st.dt).find_body id).isSome =
        (st.find_body id).isSome := find_body_isSome_congr (step_verlet_map_id st st.dt) id
    have hfind2 : (st.step_verlet st.dt).find_body id ≠ none := by
      intro hnone
      rcases hx : st.find_body id with _ | b
      · exact hfind hx
      · rw [hnone, hx] at hsome
        simp at hsome
    rcases hb : (st.step_verlet st.dt).find_body id with _ | b
    · exact absurd hb hfind2
    · have hdt2 : (st.step_verlet st.dt).dt = d0 := by rw [step_verlet_dt, hdt]
      have hrec := ih (st.step_verlet st.dt) hdt2 hfind2
      have hstep : st.step_verlet d0 = st.step_verlet st.dt := by rw [hdt]
      have hpos0 : orbitPos d0 st id 0 = b.position := by
        unfold orbitPos
        simp only [Nat.zero_add, Function.iterate_one]
        rw [hstep, hb]
      have hshift : ∀ p : ℕ, orbitPos d0 st id (p + 1) =
          orbitPos d0 (st.step_verlet st.dt) id p := by
        intro p
        unfold orbitPos
        rw [show (fun u : SimulationState => u.step_verlet d0)^[p + 1 + 1] st =
          (fun u : SimulationState => u.step_verlet d0)^[p + 1]
            ((fun u : SimulationState => u.step_verlet d0)^[1] st) from by
            rw [← Function.iterate_add_apply]]
        simp only [Function.iterate_one]
        rw [hstep]
      rw [show predictLoop (m + 1) st id =
          b.position :: predictLoop m (st.step_verlet st.dt) id from by
          conv_lhs => rw [predictLoop]
          rw [hb]]
      rw [hrec, List.range_succ_eq_map, List.map_cons, hpos0, List.map_map]
      congr 1
      exact List.map_congr_left fun p _ => (hshift p).symm

end SimulationState

end OrbitForge

namespace OrbitForge

theorem map_map_proj {α : Type} (f : CelestialBody → α)
    (g : CelestialBody → CelestialBody) (hg : ∀ b, f (g b) = f b)
    (bs : List CelestialBody) : (bs.map g).map f = bs.map f := by
  rw [List.map_map]
  exact List.map_congr_left fun b _ => hg b

/-- C7: `predict_orbit` (via the command's 2000 cap) returns at most
`min(steps, 2000)` positions; the fork it integrates has
`speed_multiplier = 1`, is unpaused, keeps the base `dt`, shares the GPU
handle and has all trails cleared; an unknown body id yields an empty path;
and for a live body the path is exactly the body's position after each of
the first `min(steps, 2000)` plain Verlet substeps of the fork at the base
`dt` (no collision resolution, no speed-multiplier substepping).  The live
state is untouched: `predict_orbit` is a pure function of it. -/
theorem claim_C7_predict_orbit (s : SimulationState) (body_id steps : ℕ) :
    (predict_orbit_cmd s body_id steps).length ≤ min steps 2000 ∧
    (s.predFork.speed_multiplier = 1 ∧ s.predFork.paused = false ∧
     s.predFork.dt = s.dt ∧ s.predFork.tick = 0 ∧ s.predFork.gpu = s.gpu ∧
     ∀ b ∈ s.predFork.bodies, b.trail = []) ∧
    (s.find_body body_id = none → predict_orbit_cmd s body_id steps = []) ∧
    (s.find_body body_id ≠ none →
      predict_orbit_cmd s body_id steps =
        (List.range (min steps 2000)).map
          (SimulationState.orbitPos s.dt s.predFork body_id)) := by
  have hmapid : s.predFork.bodies.map (fun b => b.id) = s.bodies.map (fun b => b.id) :=
    map_map_proj (fun b => b.id) (fun b => { b with trail := [] }) (fun b => rfl) s.bodies
  have hsome : (s.predFork.find_body body_id).isSome = (s.find_body body_id).isSome :=
    SimulationState.find_body_isSome_congr hmapid body_id
  have habsent : s.find_body body_id = none → predict_orbit_cmd s body_id steps = [] := by
    intro h
    have hfork : s.predFork.find_body body_id = none := by
      rw [h] at hsome
      rcases ho : s.predFork.find_body body_id with _ | b
      · rfl
      · rw [ho] at hsome
        simp at hsome
    exact SimulationState.predictLoop_absent body_id (min steps 2000) s.predFork hfork
  have hpresent : s.find_body body_id ≠ none →
      predict_orbit_cmd s body_id steps =
        (List.range (min steps 2000)).map
          (SimulationState.orbitPos s.dt s.predFork body_id) := by
    intro h
    have hfork : s.predFork.find_body body_id ≠ none := by
      intro hnone
      rw [hnone] at hsome
      rcases hx : s.find_body body_id with _ | b
      · exact h hx
      · rw [hx] at hsome
        simp at hsome
    exact SimulationState.predictLoop_present body_id s.dt (min steps 2000) s.predFork
      rfl hfork
  refine ⟨?_, ⟨rfl, rfl, rfl, rfl, rfl, ?_⟩, habsent, hpresent⟩
  · rcases hx : s.find_body body_id with _ | b
    · rw [habsent hx]
      simp
    · rw [hpresent (by rw [hx]; simp)]
      simp
  · intro b hb
    unfold SimulationState.predFork at hb
    rcases List.mem_map.mp hb with ⟨x, hx, rfl⟩
    rfl

/-- Witness for C7 at a concrete one-body state with a live target id. -/
theorem claim_C7_predict_orbit_witness :
    SimulationState.find_body exState 0 ≠ none ∧
    predict_orbit_cmd exState 0 3 =
      (List.range (min 3 2000)).map
        (SimulationState.orbitPos exState.dt exState.predFork 0) := by
  have hfind : SimulationState.find_body exState 0 ≠ none := by
    unfold SimulationState.find_body
    simp [exState, CelestialBody.new]
  exact ⟨hfind, (claim_C7_predict_orbit exState 0 3).2.2.2 hfind⟩

end OrbitForge

namespace OrbitForge

/-- The id invariant: `next_id` strictly bounds every live id, and live ids
are pairwise distinct. -/
def IdInv (s : SimulationState) : Prop :=
  (∀ i ∈ s.bodies.map (fun b => b.id), i < s.next_id) ∧
  (s.bodies.map (fun b => b.id)).Pairwise (· ≠ ·)

theorem IdInv_of_map_id_eq {s t : SimulationState}
    (hm : t.bodies.map (fun b => b.id) = s.bodies.map (fun b => b.id))
    (hn : t.next_id = s.next_id) (h : IdInv s) : IdInv t := by
  unfold IdInv
  rw [hm, hn]
  exact h

theorem SimulationState.compAcc_map_id (s : SimulationState) :
    s.compute_accelerations.bodies.map (fun b => b.id) =
      s.bodies.map (fun b => b.id) :=
  map_of_map_eq stripAcc (fun b => b.id) (fun b => rfl)
    (SimulationState.compAcc_map_strip s)

theorem SimulationState.compAcc_next_id (s : SimulationState) :
    s.compute_accelerations.next_id = s.next_id := by
  rw [SimulationState.compAcc_eq_setBodies]

theorem IdInv_compAcc {s : SimulationState} (h : IdInv s) :
    IdInv s.compute_accelerations :=
  IdInv_of_map_id_eq (SimulationState.compAcc_map_id s)
    (SimulationState.compAcc_next_id s) h

/-- Pushing a body carrying the freshly allocated id preserves the id
invariant. -/
theorem IdInv_push (s : SimulationState) (b : CelestialBody) (hid : b.id = s.next_id)
    (h : IdInv s) :
    IdInv { s with bodies := s.bodies ++ [b], next_id := s.next_id + 1 } := by
  obtain ⟨hb, hp⟩ := h
  constructor
  · intro i hi
    simp only [List.map_append, List.mem_append, List.map_cons, List.map_nil,
      List.mem_singleton] at hi
    rcases hi with hi | hi
    · exact (hb i hi).trans (Nat.lt_succ_self _)
    · rw [hi, hid]
      exact Nat.lt_succ_self _
  · simp only [List.map_append]
    rw [List.pairwise_append]
    refine ⟨hp, by simp, ?_⟩
    intro x hx y hy
    simp at hy
    rw [hy, hid]
    exact Nat.ne_of_lt (hb x hx)

theorem IdInv_step_verlet {s : SimulationState} (d : ℝ) (h : IdInv s) :
    IdInv (s.step_verlet d) :=
  IdInv_of_map_id_eq (SimulationState.step_verlet_map_id s d)
    (by rw [SimulationState.step_verlet_eq_setBodies]) h

theorem IdInv_check_collisions {s : SimulationState} (h : IdInv s) :
    IdInv (s.check_collisions).1 := by
  obtain ⟨hb, hp⟩ := h
  have hsub : (s.check_collisions).1.bodies.Sublist
      (scanLoop s.bodies.length (s.bodies, List.replicate s.bodies.length false, [])).1 :=
    removeDesc_sublist _ _ _
  have hscan : (scanLoop s.bodies.length
      (s.bodies, List.replicate s.bodies.length false, [])).1.map (fun b => b.id) =
      s.bodies.map (fun b => b.id) := scanLoop_map_id _ _
  have hidsub : ((s.check_collisions).1.bodies.map (fun b => b.id)).Sublist
      (s.bodies.map (fun b => b.id)) := by
    rw [← hscan]
    exact hsub.map _
  constructor
  · intro i hi
    exact hb i (hidsub.subset hi)
  · exact hp.sublist hidsub

theorem IdInv_substep {s : SimulationState} (d : ℝ) (h : IdInv s) :
    IdInv (s.substep d).1 :=
  IdInv_check_collisions (IdInv_step_verlet d h)

theorem IdInv_step {s : SimulationState} (h : IdInv s) : IdInv (s.step).1 := by
  unfold SimulationState.step
  split
  · exact h
  · dsimp only
    set q := (List.range (⌈s.speed_multiplier⌉).toNat).foldl
      (fun acc (_ : ℕ) =>
        let r := acc.1.substep
          (s.dt * s.speed_multiplier / ((⌈s.speed_multiplier⌉).toNat : ℝ))
        (r.1, acc.2 ++ r.2)) (s, ([] : List CollisionEvent)) with hq
    have hq1 : IdInv q.1 := by
      rw [hq]
      refine foldl_preserves (fun (p : SimulationState × List CollisionEvent) => IdInv p.1)
        _ ?_ _ _ h
      intro p x hx
      exact IdInv_substep _ hx
    split
    · refine IdInv_of_map_id_eq ?_ ?_ hq1
      · exact map_map_proj (fun b => b.id) _
          (fun b => by
            show (if b.is_fixed = true then b else b.record_trail).id = b.id
            split <;> rfl) _
      · rfl
    · exact hq1

end OrbitForge

namespace OrbitForge

theorem foldl_max_le_init : ∀ (l : List ℕ) (a : ℕ), a ≤ l.foldl max a := by
  intro l
  induction l with
  | nil => intro a; exact le_refl a
  | cons x xs ih =>
    intro a
    exact le_trans (le_max_left a x) (ih (max a x))

theorem mem_le_foldl_max : ∀ (l : List ℕ) (a : ℕ), ∀ i ∈ l, i ≤ l.foldl max a := by
  intro l
  induction l with
  | nil => intro a i hi; simp at hi
  | cons x xs ih =>
    intro a i hi
    rcases List.mem_cons.mp hi with rfl | hi
    · exact le_trans (le_max_right a i) (foldl_max_le_init xs _)
    · exact ih (max a x) i hi

theorem IdInv_clear (s : SimulationState) : IdInv s.clear := by
  unfold IdInv SimulationState.clear
  simp

theorem IdInv_add_planet (st : SimulationState) (name : String)
    (orbit_radius mass radius : ℝ) (color : String) (sun_mass : ℝ)
    (h : IdInv st) : IdInv (add_planet st name orbit_radius mass radius color sun_mass) :=
  IdInv_push st _ rfl h

theorem IdInv_add_sun (st : SimulationState) (mass radius : ℝ) (h : IdInv st) :
    IdInv (add_sun st mass radius) :=
  IdInv_push st _ rfl h

theorem IdInv_belt (s : SimulationState) (rand : ℕ → ℝ) :
    IdInv (load_solar_with_belt s rand) := by
  unfold load_solar_with_belt
  dsimp only
  refine IdInv_compAcc (IdInv_add_planet _ _ _ _ _ _ _ ?_)
  refine foldl_preserves IdInv _ ?_ _ _ ?_
  · intro st i hst
    exact IdInv_push st _ rfl hst
  · refine IdInv_add_planet _ _ _ _ _ _ _ ?_
    refine IdInv_add_planet _ _ _ _ _ _ _ ?_
    refine IdInv_add_planet _ _ _ _ _ _ _ ?_
    refine IdInv_add_planet _ _ _ _ _ _ _ ?_
    exact IdInv_add_sun _ _ _ (IdInv_clear s)

theorem IdInv_generate_system (s : SimulationState) (rand : ℕ → ℝ) (star_mass : ℝ)
    (planet_count : ℕ) (min_spacing max_radius : ℝ) :
    IdInv (generate_system s rand star_mass planet_count min_spacing max_radius) := by
  unfold generate_system
  dsimp only
  apply IdInv_compAcc
  refine (foldl_preserves (fun (q : SimulationState × ℝ) => IdInv q.1) _ ?_ _ _ ?_)
  · intro q i hq
    exact IdInv_push q.1 _ rfl hq
  · exact IdInv_push _ _ rfl (IdInv_clear s)

theorem IdInv_generate_disc (s : SimulationState) (rand : ℕ → ℝ) (base : ℕ)
    (center bulk_vel : Vec3) (core_mass : ℝ) (count : ℕ) (color : String)
    (h : IdInv s) : IdInv (generate_disc s rand base center bulk_vel core_mass count color) := by
  unfold generate_disc
  dsimp only
  refine foldl_preserves IdInv _ ?_ _ _ h
  intro st i hst
  exact IdInv_push st _ rfl hst

theorem IdInv_generate_collision (s : SimulationState) (rand : ℕ → ℝ) (k : ℕ) :
    IdInv (generate_collision s rand k) := by
  unfold generate_collision
  dsimp only
  exact IdInv_compAcc (IdInv_generate_disc _ _ _ _ _ _ _ _
    (IdInv_push _ _ rfl (IdInv_generate_disc _ _ _ _ _ _ _ _
      (IdInv_push _ _ rfl (IdInv_clear s)))))

theorem import_state_ids (cur imp : SimulationState) :
    (import_state cur imp).bodies.map (fun b => b.id) =
      imp.bodies.map (fun b => b.id) := by
  unfold import_state
  dsimp only
  refine (SimulationState.compAcc_map_id _).trans ?_
  split <;> rfl

theorem import_state_next (cur imp : SimulationState) :
    (import_state cur imp).next_id =
      (if imp.next_id ≤ (imp.bodies.map (fun b => b.id)).foldl max 0
       then (imp.bodies.map (fun b => b.id)).foldl max 0 + 1
       else imp.next_id) := by
  unfold import_state
  dsimp only
  refine (SimulationState.compAcc_next_id _).trans ?_
  split <;> rfl

end OrbitForge

namespace OrbitForge

/-- C8 (amended): `next_id` strictly exceeds every live id and live ids stay
pairwise distinct across the add command, remove, clear, a collision pass, a
full step, the belt scenario and both procedural generators; `import_state`
always re-establishes the `next_id` bound, and it yields distinct live ids
provided the imported snapshot's ids are themselves distinct (it does not
deduplicate them). -/
theorem claim_C8_id_invariant_amended :
    (∀ (s : SimulationState) (bd : BodyData), IdInv s → IdInv (add_body_cmd s bd).1) ∧
    (∀ (s : SimulationState) (id : ℕ), IdInv s → IdInv (remove_body_cmd s id)) ∧
    (∀ s : SimulationState, IdInv s.clear) ∧
    (∀ s : SimulationState, IdInv s → IdInv (s.check_collisions).1) ∧
    (∀ s : SimulationState, IdInv s → IdInv (s.step).1) ∧
    (∀ cur imp : SimulationState,
      (∀ i ∈ (import_state cur imp).bodies.map (fun b => b.id),
        i < (import_state cur imp).next_id) ∧
      ((imp.bodies.map (fun b => b.id)).Pairwise (· ≠ ·) →
        IdInv (import_state cur imp))) ∧
    (∀ (s : SimulationState) (rand : ℕ → ℝ), IdInv (load_solar_with_belt s rand)) ∧
    (∀ (s : SimulationState) (rand : ℕ → ℝ) (star_mass : ℝ) (planet_count : ℕ)
        (min_spacing max_radius : ℝ),
      IdInv (generate_system s rand star_mass planet_count min_spacing max_radius)) ∧
    (∀ (s : SimulationState) (rand : ℕ → ℝ) (k : ℕ),
      IdInv (generate_collision s rand k)) := by
  refine ⟨?_, ?_, IdInv_clear, fun s => IdInv_check_collisions, fun s => IdInv_step,
    ?_, IdInv_belt, IdInv_generate_system, IdInv_generate_collision⟩
  · intro s bd h
    exact IdInv_compAcc (IdInv_push s _ rfl h)
  · intro s id h
    obtain ⟨hb, hp⟩ := h
    have hsub : ((s.bodies.filter (fun b => b.id ≠ id)).map (fun b => b.id)).Sublist
        (s.bodies.map (fun b => b.id)) := (List.filter_sublist _).map _
    exact ⟨fun i hi => hb i (hsub.subset hi), hp.sublist hsub⟩
  · intro cur imp
    have hbound : ∀ i ∈ (import_state cur imp).bodies.map (fun b => b.id),
        i < (import_state cur imp).next_id := by
      intro i hi
      rw [import_state_ids] at hi
      rw [import_state_next]
      have hle : i ≤ (imp.bodies.map (fun b => b.id)).foldl max 0 :=
        mem_le_foldl_max _ 0 i hi
      split
      · omega
      · omega
    refine ⟨hbound, fun hpw => ⟨hbound, ?_⟩⟩
    rw [import_state_ids]
    exact hpw

/-- A snapshot with two bodies sharing id 5 (the C8 counterexample input). -/
def c8Dup : SimulationState :=
  { SimulationState.new with bodies :=
      [CelestialBody.new 5 ("D1") ⟨0, 0, 0⟩ ⟨0, 0, 0⟩ 1 1 ("#000005") false,
       CelestialBody.new 5 ("D2") ⟨3, 0, 0⟩ ⟨0, 0, 0⟩ 1 1 ("#000006") false] }

/-- C8 counterexample: importing a snapshot whose bodies share id 5 leaves
two live bodies with the same id — `import_state` reconciles `next_id` but
never deduplicates ids, so the distinctness half of the claim fails. -/
theorem claim_C8_id_invariant_counterexample :
    ¬ ((import_state SimulationState.new c8Dup).bodies.map
        (fun b => b.id)).Pairwise (· ≠ ·) := by
  intro hpw
  rw [import_state_ids] at hpw
  have : (c8Dup.bodies.map (fun b => b.id)) = [5, 5] := rfl
  rw [this] at hpw
  rcases List.pairwise_cons.mp hpw with ⟨h5, _⟩
  exact h5 5 (by simp) rfl

/-- A concrete well-formed state for the C8 witness. -/
def c8Good : SimulationState :=
  { SimulationState.new with
    bodies := [CelestialBody.new 0 ("G") ⟨0, 0, 0⟩ ⟨0, 0, 0⟩ 1 1 ("#000007") false],
    next_id := 1 }

/-- Witness for C8: the step conjunct applied at a concrete state whose id
invariant is discharged by evaluation. -/
theorem claim_C8_id_invariant_witness :
    IdInv c8Good ∧ IdInv (SimulationState.step c8Good).1 := by
  have h : IdInv c8Good := by
    constructor
    · intro i hi
      simp [c8Good, CelestialBody.new] at hi
      simp [hi, c8Good]
    · simp [c8Good, CelestialBody.new]
  exact ⟨h, (claim_C8_id_invariant_amended.2.2.2.2.1) c8Good h⟩

end OrbitForge

namespace OrbitForge

/-- The positivity invariant: every live body has positive mass and radius. -/
def Qstate (s : SimulationState) : Prop :=
  ∀ b ∈ s.bodies, 0 < b.mass ∧ 0 < b.radius

theorem SimulationState.compAcc_map_mass (s : SimulationState) :
    s.compute_accelerations.bodies.map (fun b => b.mass) =
      s.bodies.map (fun b => b.mass) :=
  map_of_map_eq stripAcc (fun b => b.mass) (fun b => rfl)
    (SimulationState.compAcc_map_strip s)

theorem SimulationState.compAcc_map_radius (s : SimulationState) :
    s.compute_accelerations.bodies.map (fun b => b.radius) =
      s.bodies.map (fun b => b.radius) :=
  map_of_map_eq stripAcc (fun b => b.radius) (fun b => rfl)
    (SimulationState.compAcc_map_strip s)

theorem Qstate_of_maps {s t : SimulationState}
    (hm : t.bodies.map (fun b => b.mass) = s.bodies.map (fun b => b.mass))
    (hr : t.bodies.map (fun b => b.radius) = s.bodies.map (fun b => b.radius))
    (h : Qstate s) : Qstate t := by
  intro b hb
  constructor
  · have hmem : b.mass ∈ t.bodies.map (fun b => b.mass) := List.mem_map_of_mem _ hb
    rw [hm] at hmem
    rcases List.mem_map.mp hmem with ⟨a, ha, hae⟩
    rw [← hae]
    exact (h a ha).1
  · have hmem : b.radius ∈ t.bodies.map (fun b => b.radius) := List.mem_map_of_mem _ hb
    rw [hr] at hmem
    rcases List.mem_map.mp hmem with ⟨a, ha, hae⟩
    rw [← hae]
    exact (h a ha).2

theorem Qstate_compAcc {s : SimulationState} (h : Qstate s) :
    Qstate s.compute_accelerations :=
  Qstate_of_maps (SimulationState.compAcc_map_mass s)
    (SimulationState.compAcc_map_radius s) h

theorem Qstate_step_verlet {s : SimulationState} (d : ℝ) (h : Qstate s) :
    Qstate (s.step_verlet d) :=
  Qstate_of_maps
    (map_of_map_eq kinStrip (fun b => b.mass) (fun b => rfl)
      (SimulationState.step_verlet_map_kin s d))
    (map_of_map_eq kinStrip (fun b => b.radius) (fun b => rfl)
      (SimulationState.step_verlet_map_kin s d)) h

theorem Qstate_check_collisions {s : SimulationState} (h : Qstate s) :
    Qstate (s.check_collisions).1 := by
  intro b hb
  have hsub : (s.check_collisions).1.bodies.Sublist
      (scanLoop s.bodies.length (s.bodies, List.replicate s.bodies.length false, [])).1 :=
    removeDesc_sublist _ _ _
  exact scanLoop_Qb s.bodies.length
    (s.bodies, List.replicate s.bodies.length false, []) h b (hsub.subset hb)

theorem Qstate_substep {s : SimulationState} (d : ℝ) (h : Qstate s) :
    Qstate (s.substep d).1 :=
  Qstate_check_collisions (Qstate_step_verlet d h)

theorem Qstate_step {s : SimulationState} (h : Qstate s) : Qstate (s.step).1 := by
  unfold SimulationState.step
  split
  · exact h
  · dsimp only
    set q := (List.range (⌈s.speed_multiplier⌉).toNat).foldl
      (fun acc (_ : ℕ) =>
        let r := acc.1.substep
          (s.dt * s.speed_multiplier / ((⌈s.speed_multiplier⌉).toNat : ℝ))
        (r.1, acc.2 ++ r.2)) (s, ([] : List CollisionEvent)) with hq
    have hq1 : Qstate q.1 := by
      rw [hq]
      refine foldl_preserves (fun (p : SimulationState × List CollisionEvent) => Qstate p.1)
        _ ?_ _ _ h
      intro p x hx
      exact Qstate_substep _ hx
    split
    · refine Qstate_of_maps ?_ ?_ hq1
      · exact map_map_proj (fun b => b.mass) _
          (fun b => by
            show (if b.is_fixed = true then b else b.record_trail).mass = b.mass
            split <;> rfl) _
      · exact map_map_proj (fun b => b.radius) _
          (fun b => by
            show (if b.is_fixed = true then b else b.record_trail).radius = b.radius
            split <;> rfl) _
    · exact hq1

theorem Qstate_push {s : SimulationState} (b : CelestialBody)
    (hm : 0 < b.mass) (hr : 0 < b.radius) (h : Qstate s) :
    Qstate { s with bodies := s.bodies ++ [b], next_id := s.next_id + 1 } := by
  intro x hx
  rcases List.mem_append.mp hx with hx | hx
  · exact h x hx
  · rw [List.mem_singleton.mp hx]
    exact ⟨hm, hr⟩

end OrbitForge

namespace OrbitForge

theorem Qstate_clear (s : SimulationState) : Qstate s.clear := by
  intro b hb
  simp [SimulationState.clear] at hb

theorem applyUpdate_pos (flds : BodyUpdate) (b : CelestialBody)
    (h : 0 < b.mass ∧ 0 < b.radius) :
    0 < (applyUpdate flds b).mass ∧ 0 < (applyUpdate flds b).radius := by
  unfold applyUpdate
  rcases flds with ⟨m, r, c, nm, fx⟩
  cases m <;> cases r <;> cases c <;> cases nm <;> cases fx <;>
    refine ⟨?_, ?_⟩ <;>
    first
      | exact h.1
      | exact h.2
      | exact lt_max_iff.mpr (Or.inr (by norm_num))

theorem mem_updateFirst (id : ℕ) (f : CelestialBody → CelestialBody) :
    ∀ (l : List CelestialBody) (b : CelestialBody), b ∈ updateFirst id f l →
      b ∈ l ∨ ∃ a ∈ l, b = f a := by
  intro l
  induction l with
  | nil => intro b hb; simp [updateFirst] at hb
  | cons x rest ih =>
    intro b hb
    unfold updateFirst at hb
    split at hb
    · rcases List.mem_cons.mp hb with rfl | hb
      · exact Or.inr ⟨x, List.mem_cons_self x rest, rfl⟩
      · exact Or.inl (List.mem_cons_of_mem x hb)
    · rcases List.mem_cons.mp hb with rfl | hb
      · exact Or.inl (List.mem_cons_self _ _)
      · rcases ih b hb with hmem | ⟨a, ha, he⟩
        · exact Or.inl (List.mem_cons_of_mem x hmem)
        · exact Or.inr ⟨a, List.mem_cons_of_mem x ha, he⟩

theorem Qstate_add_planet (st : SimulationState) (name : String)
    (orbit_radius mass radius : ℝ) (color : String) (sun_mass : ℝ)
    (hm : 0 < mass) (hr : 0 < radius) (h : Qstate st) :
    Qstate (add_planet st name orbit_radius mass radius color sun_mass) :=
  Qstate_push _ hm hr h

theorem Qstate_add_sun (st : SimulationState) (mass radius : ℝ)
    (hm : 0 < mass) (hr : 0 < radius) (h : Qstate st) :
    Qstate (add_sun st mass radius) :=
  Qstate_push _ hm hr h

theorem Qstate_belt (s : SimulationState) (rand : ℕ → ℝ) :
    Qstate (load_solar_with_belt s rand) := by
  unfold load_solar_with_belt
  dsimp only
  refine Qstate_compAcc (Qstate_add_planet _ _ _ _ _ _ _ (by norm_num) (by norm_num) ?_)
  refine foldl_preserves Qstate _ ?_ _ _ ?_
  · intro st i hst
    exact Qstate_push _ (by norm_num [CelestialBody.new]) (by norm_num [CelestialBody.new]) hst
  · refine Qstate_add_planet _ _ _ _ _ _ _ (by norm_num) (by norm_num) ?_
    refine Qstate_add_planet _ _ _ _ _ _ _ (by norm_num) (by norm_num) ?_
    refine Qstate_add_planet _ _ _ _ _ _ _ (by norm_num) (by norm_num) ?_
    refine Qstate_add_planet _ _ _ _ _ _ _ (by norm_num) (by norm_num) ?_
    exact Qstate_add_sun _ _ _ (by norm_num) (by norm_num) (Qstate_clear s)

theorem Qstate_generate_system (s : SimulationState) (rand : ℕ → ℝ) (star_mass : ℝ)
    (planet_count : ℕ) (min_spacing max_radius : ℝ) (hsm : 0 < star_mass) :
    Qstate (generate_system s rand star_mass planet_count min_spacing max_radius) := by
  unfold generate_system
  dsimp only
  apply Qstate_compAcc
  refine foldl_preserves (fun (q : SimulationState × ℝ) => Qstate q.1) _ ?_ _ _ ?_
  · intro q i hq
    refine Qstate_push _ (Real.rpow_pos_of_pos (by norm_num) _) ?_ hq
    exact lt_min (lt_of_lt_of_le (by norm_num) (le_max_right _ _)) (by norm_num)
  · refine Qstate_push _ hsm ?_ (Qstate_clear s)
    exact lt_min (lt_of_lt_of_le (by norm_num) (le_max_right _ _)) (by norm_num)

theorem Qstate_generate_disc (s : SimulationState) (rand : ℕ → ℝ) (base : ℕ)
    (center bulk_vel : Vec3) (core_mass : ℝ) (count : ℕ) (color : String)
    (hrand : ∀ n, 0 ≤ rand n) (h : Qstate s) :
    Qstate (generate_disc s rand base center bulk_vel core_mass count color) := by
  unfold generate_disc
  dsimp only
  refine foldl_preserves Qstate _ ?_ _ _ h
  intro st i hst
  refine Qstate_push _ (by norm_num [CelestialBody.new]) ?_ hst
  show (0:ℝ) < 1 + rand (base + 4 * i + 3) * 0.5
  have hu := hrand (base + 4 * i + 3)
  have : 0 ≤ rand (base + 4 * i + 3) * 0.5 := by positivity
  linarith

theorem Qstate_generate_collision (s : SimulationState) (rand : ℕ → ℝ) (k : ℕ)
    (hrand : ∀ n, 0 ≤ rand n) : Qstate (generate_collision s rand k) := by
  unfold generate_collision
  dsimp only
  refine Qstate_compAcc (Qstate_generate_disc _ _ _ _ _ _ _ _ hrand ?_)
  refine Qstate_push _ (by norm_num [CelestialBody.new]) (by norm_num [CelestialBody.new]) ?_
  refine Qstate_generate_disc _ _ _ _ _ _ _ _ hrand ?_
  exact Qstate_push _ (by norm_num [CelestialBody.new]) (by norm_num [CelestialBody.new]) (Qstate_clear s)

end OrbitForge

namespace OrbitForge

theorem Qstate_snoc {s t : SimulationState} (b : CelestialBody)
    (ht : t.bodies = s.bodies ++ [b])
    (hm : 0 < b.mass) (hr : 0 < b.radius) (h : Qstate s) : Qstate t := by
  intro x hx
  rw [ht] at hx
  rcases List.mem_append.mp hx with hx | hx
  · exact h x hx
  · rw [List.mem_singleton.mp hx]
    exact ⟨hm, hr⟩

theorem Qstate_add_body_cmd (s : SimulationState) (bd : BodyData) (h : Qstate s) :
    Qstate (add_body_cmd s bd).1 := by
  unfold add_body_cmd
  dsimp only
  unfold SimulationState.add_body
  dsimp only
  refine Qstate_compAcc (Qstate_snoc _ rfl ?_ ?_ h)
  · show (0 : ℝ) < max bd.mass 0.01
    exact lt_max_iff.mpr (Or.inr (by norm_num))
  · show (0 : ℝ) < max bd.radius 0.5
    exact lt_max_iff.mpr (Or.inr (by norm_num))

theorem add_body_cmd_map_mass (s : SimulationState) (bd : BodyData) :
    (add_body_cmd s bd).1.bodies.map (fun b => b.mass) =
      s.bodies.map (fun b => b.mass) ++ [max bd.mass 0.01] := by
  unfold add_body_cmd
  dsimp only
  unfold SimulationState.add_body
  dsimp only
  rw [SimulationState.compAcc_map_mass]
  dsimp only
  rw [List.map_append]
  rfl

theorem add_body_cmd_map_radius (s : SimulationState) (bd : BodyData) :
    (add_body_cmd s bd).1.bodies.map (fun b => b.radius) =
      s.bodies.map (fun b => b.radius) ++ [max bd.radius 0.5] := by
  unfold add_body_cmd
  dsimp only
  unfold SimulationState.add_body
  dsimp only
  rw [SimulationState.compAcc_map_radius]
  dsimp only
  rw [List.map_append]
  rfl

theorem Qstate_update_body_cmd (s : SimulationState) (id : ℕ) (flds : BodyUpdate)
    (h : Qstate s) : Qstate (update_body_cmd s id flds) := by
  intro b hb
  rcases mem_updateFirst id (applyUpdate flds) s.bodies b hb with hmem | ⟨a, ha, he⟩
  · exact h b hmem
  · rw [he]
    exact applyUpdate_pos flds a (h a ha)

theorem exists_mass_mem_of_map_eq {s t : SimulationState} {q : ℝ}
    (hm : t.bodies.map (fun b => b.mass) = s.bodies.map (fun b => b.mass))
    (h : ∃ b ∈ s.bodies, b.mass < q) : ∃ b ∈ t.bodies, b.mass < q := by
  obtain ⟨b, hb, hlt⟩ := h
  have hmem : b.mass ∈ t.bodies.map (fun b => b.mass) := by
    rw [hm]
    exact List.mem_map_of_mem _ hb
  rcases List.mem_map.mp hmem with ⟨a, ha, hae⟩
  exact ⟨a, ha, by rw [hae]; exact hlt⟩

theorem exists_small_mass_add_planet {st : SimulationState} {q : ℝ}
    (name : String) (orbit_radius mass radius : ℝ) (color : String) (sun_mass : ℝ)
    (h : ∃ b ∈ st.bodies, b.mass < q) :
    ∃ b ∈ (add_planet st name orbit_radius mass radius color sun_mass).bodies,
      b.mass < q := by
  obtain ⟨b, hb, hlt⟩ := h
  exact ⟨b, List.mem_append_left _ hb, hlt⟩

end OrbitForge

namespace OrbitForge

/-- C9 (amended): every live body keeps `mass > 0` and `radius > 0` across the
add and update commands, a full step (ticks and collision merges), the belt
scenario unconditionally, and the procedural generators under their parameter
conditions (positive star mass; nonnegative oracle draws); the `add_body`
command — and only the command layer — clamps the supplied mass and radius to
the floors 0.01 and 0.5. -/
theorem claim_C9_positivity_amended :
    (∀ (s : SimulationState) (bd : BodyData), Qstate s → Qstate (add_body_cmd s bd).1) ∧
    (∀ (s : SimulationState) (bd : BodyData),
      (add_body_cmd s bd).1.bodies.map (fun b => b.mass) =
        s.bodies.map (fun b => b.mass) ++ [max bd.mass 0.01] ∧
      (add_body_cmd s bd).1.bodies.map (fun b => b.radius) =
        s.bodies.map (fun b => b.radius) ++ [max bd.radius 0.5]) ∧
    (∀ (s : SimulationState) (id : ℕ) (flds : BodyUpdate),
      Qstate s → Qstate (update_body_cmd s id flds)) ∧
    (∀ s : SimulationState, Qstate s → Qstate (s.step).1) ∧
    (∀ (s : SimulationState) (rand : ℕ → ℝ), Qstate (load_solar_with_belt s rand)) ∧
    (∀ (s : SimulationState) (rand : ℕ → ℝ) (star_mass : ℝ) (planet_count : ℕ)
        (min_spacing max_radius : ℝ), 0 < star_mass →
      Qstate (generate_system s rand star_mass planet_count min_spacing max_radius)) ∧
    (∀ (s : SimulationState) (rand : ℕ → ℝ) (k : ℕ), (∀ n, 0 ≤ rand n) →
      Qstate (generate_collision s rand k)) := by
  refine ⟨Qstate_add_body_cmd,
    fun s bd => ⟨add_body_cmd_map_mass s bd, add_body_cmd_map_radius s bd⟩,
    Qstate_update_body_cmd,
    fun s h => Qstate_step h,
    Qstate_belt,
    fun s rand star_mass pc ms mr hsm => Qstate_generate_system s rand star_mass pc ms mr hsm,
    fun s rand k hrand => Qstate_generate_collision s rand k hrand⟩

/-- C9 counterexample: the belt scenario constructs its asteroids with mass
0.001, below the claimed 0.01 construction floor — the scenario and generator
constructors pass raw values to `CelestialBody::new` and never clamp. -/
theorem claim_C9_positivity_counterexample :
    ∃ b ∈ (load_solar_with_belt SimulationState.new (fun _ => 0)).bodies,
      b.mass < 0.01 := by
  unfold load_solar_with_belt
  dsimp only
  refine exists_mass_mem_of_map_eq (SimulationState.compAcc_map_mass _) ?_
  refine exists_small_mass_add_planet _ _ _ _ _ _ ?_
  rw [show (200 : ℕ) = 199 + 1 from rfl, List.range_succ, List.foldl_append,
    List.foldl_cons, List.foldl_nil]
  dsimp only
  simp only [SimulationState.allocate_id]
  refine ⟨_, List.mem_append_right _ (List.mem_singleton_self _), ?_⟩
  norm_num [CelestialBody.new]

/-- A concrete well-formed state for the C9 witness. -/
def c9State : SimulationState :=
  { SimulationState.new with
    bodies := [CelestialBody.new 0 ("W") ⟨0, 0, 0⟩ ⟨0, 0, 0⟩ 1 1 ("#000009") false],
    next_id := 1 }

/-- Concrete body data for the C9 witness. -/
def c9Bd : BodyData :=
  { x := 0, y := 0, z := 0, vx := 0, vy := 0, vz := 0, mass := 2, radius := 1,
    color := "#00000A", name := "WB", is_fixed := false,
    body_type := BodyType.planet }

/-- Witness for C9: the positivity conjuncts applied at concrete inputs, each
hypothesis discharged by evaluation. -/
theorem claim_C9_positivity_witness :
    Qstate c9State ∧
    Qstate (add_body_cmd c9State c9Bd).1 ∧
    Qstate (update_body_cmd c9State 0 ⟨some 5, none, none, none, none⟩) ∧
    Qstate (SimulationState.step c9State).1 ∧
    Qstate (load_solar_with_belt SimulationState.new (fun _ => 0)) ∧
    ((0 : ℝ) < 1 ∧
      Qstate (generate_system SimulationState.new (fun _ => 0) 1 3 100 300)) ∧
    ((∀ n : ℕ, (0 : ℝ) ≤ (fun _ => (0 : ℝ)) n) ∧
      Qstate (generate_collision SimulationState.new (fun _ => 0) 5)) := by
  have h : Qstate c9State := by
    intro b hb
    rw [show c9State.bodies =
      [CelestialBody.new 0 ("W") ⟨0, 0, 0⟩ ⟨0, 0, 0⟩ 1 1 ("#000009") false] from rfl] at hb
    rw [List.mem_singleton.mp hb]
    constructor <;> norm_num [CelestialBody.new]
  refine ⟨h, claim_C9_positivity_amended.1 c9State c9Bd h,
    claim_C9_positivity_amended.2.2.1 c9State 0 ⟨some 5, none, none, none, none⟩ h,
    claim_C9_positivity_amended.2.2.2.1 c9State h,
    claim_C9_positivity_amended.2.2.2.2.1 SimulationState.new (fun _ => 0),
    ⟨by norm_num,
      claim_C9_positivity_amended.2.2.2.2.2.1 SimulationState.new (fun _ => 0) 1 3 100 300
        (by norm_num)⟩,
    ⟨fun n => le_refl 0,
      claim_C9_positivity_amended.2.2.2.2.2.2 SimulationState.new (fun _ => 0) 5
        (fun n => le_refl 0)⟩⟩

end OrbitForge

namespace OrbitForge

/-- The bodies stored at `body_index` leaves of a subtree, each with the
position and mass recorded at its leaf (a single-body leaf stores the body's
position as `center_of_mass` and its mass as `total_mass`). -/
def OctreeNode.leafBodies (t : OctreeNode) : List (ℕ × Vec3 × ℝ) :=
  match t with
  | .mk _ _ tm com bi cs =>
    (match bi with
     | some i => [(i, com, tm)]
     | none => []) ++
    (cs.attach.map (fun kc => OctreeNode.leafBodies kc.1.2)).flatten
termination_by sizeOf t
decreasing_by
  simp_wf
  obtain ⟨⟨k, c⟩, hmem⟩ := kc
  have h := List.sizeOf_lt_of_mem hmem
  simp at h ⊢
  omega

set_option maxRecDepth 4000 in
theorem c3_insert_first :
    insertA MAX_DEPTH (OctreeNode.new ⟨5, 0, 0⟩ 6) 0 ⟨0, 0, 0⟩ 5 =
      (OctreeNode.mk ⟨5, 0, 0⟩ 6 5 ⟨0, 0, 0⟩ (some 0) [], false) := by
  rw [show MAX_DEPTH = Nat.succ 19 from rfl,
    show OctreeNode.new ⟨5, 0, 0⟩ 6 =
      OctreeNode.mk ⟨5, 0, 0⟩ 6 0 Vec3.zero none [] from rfl]
  simp only [insertA]
  norm_num

set_option maxRecDepth 4000 in
theorem c3_insert_second :
    insertA MAX_DEPTH (OctreeNode.mk ⟨5, 0, 0⟩ 6 5 ⟨0, 0, 0⟩ (some 0) [])
        1 ⟨10, 0, 0⟩ 7 =
      (OctreeNode.mk ⟨5, 0, 0⟩ 6 7 ⟨10, 0, 0⟩ none
        [(6, OctreeNode.mk ⟨2, 3, 3⟩ 3 5 ⟨0, 0, 0⟩ (some 0) []),
         (7, OctreeNode.mk ⟨8, 3, 3⟩ 3 7 ⟨10, 0, 0⟩ (some 1) [])], false) := by
  rw [show MAX_DEPTH = Nat.succ (Nat.succ 18) from rfl]
  norm_num [insertA, octant, child_center, OctreeNode.new, List.lookup, Vec3.zero]
  simp only [show (7 == 6) = false from rfl]
  norm_num
  refine ⟨⟨?_, ?_⟩, ?_, ?_⟩ <;> decide

end OrbitForge

namespace OrbitForge

theorem attachMap {α : Type} {β : Type} (l : List α) (g : α → β) :
    l.attach.map (fun kc => g kc.1) = l.map g := by
  exact List.attach_map_val l g

theorem leafBodies_mk (ctr : Vec3) (hs tm : ℝ) (com : Vec3) (bi : Option ℕ)
    (cs : List (ℕ × OctreeNode)) :
    OctreeNode.leafBodies (.mk ctr hs tm com bi cs) =
      (match bi with
       | some i => [(i, com, tm)]
       | none => []) ++
      (cs.map (fun kc => OctreeNode.leafBodies kc.2)).flatten := by
  rw [OctreeNode.leafBodies.eq_def]
  dsimp only
  rw [attachMap cs (fun kc => OctreeNode.leafBodies kc.2)]

end OrbitForge

namespace OrbitForge

set_option maxRecDepth 4000 in
theorem c3_build_eval :
    build_octree [⟨0, 0, 0⟩, ⟨10, 0, 0⟩] [5, 7] =
      (OctreeNode.mk ⟨5, 0, 0⟩ 6 7 ⟨10, 0, 0⟩ none
        [(6, OctreeNode.mk ⟨2, 3, 3⟩ 3 5 ⟨0, 0, 0⟩ (some 0) []),
         (7, OctreeNode.mk ⟨8, 3, 3⟩ 3 7 ⟨10, 0, 0⟩ (some 1) [])], false) := by
  unfold build_octree
  dsimp only
  rw [show (([(⟨0, 0, 0⟩ : Vec3), ⟨10, 0, 0⟩].zip [(5 : ℝ), 7]).enum) =
    [(0, (⟨0, 0, 0⟩ : Vec3), (5 : ℝ)), (1, (⟨10, 0, 0⟩ : Vec3), (7 : ℝ))] from rfl]
  simp only [List.foldl_cons, List.foldl_nil]
  norm_num [f64MAX, f64MIN, min_def, max_def, OctreeNode.new]
  rw [show insertA MAX_DEPTH (OctreeNode.mk ⟨5, 0, 0⟩ 6 0 ⟨0, 0, 0⟩ none []) 0
        ⟨0, 0, 0⟩ 5 =
      (OctreeNode.mk ⟨5, 0, 0⟩ 6 5 ⟨0, 0, 0⟩ (some 0) [], false) from c3_insert_first]
  dsimp only
  rw [c3_insert_second]
  exact ⟨rfl, rfl, rfl⟩

end OrbitForge

namespace OrbitForge

/-- C3: the octree aggregate invariant FAILS — a code bug.  On the input
positions `[(0,0,0), (10,0,0)]` with masses `[5, 7]` (positive masses, both
insertions far from the depth cap: the flag is `false`), the two bodies are
stored at leaves of the root's subtree with total mass `12`, yet the root
records `total_mass = 7`: `OctreeNode::insert` zeroes the node's aggregates
before evicting the existing body into a child, and the final aggregate
update adds back only the newly inserted mass, dropping the evicted body's
contribution. -/
theorem claim_C3_octree_aggregates_code_bug :
    (build_octree [⟨0, 0, 0⟩, ⟨10, 0, 0⟩] [5, 7]).2 = false ∧
    (((build_octree [⟨0, 0, 0⟩, ⟨10, 0, 0⟩] [5, 7]).1.leafBodies).map
        (fun x => x.2.2)).sum = 12 ∧
    (build_octree [⟨0, 0, 0⟩, ⟨10, 0, 0⟩] [5, 7]).1.total_mass = 7 ∧
    (7 : ℝ) ≠ 12 := by
  refine ⟨by rw [c3_build_eval], ?_, by rw [c3_build_eval]; rfl, by norm_num⟩
  rw [c3_build_eval]
  show ((OctreeNode.leafBodies _).map _).sum = 12
  rw [leafBodies_mk]
  simp only [List.map_cons, List.map_nil]
  rw [leafBodies_mk, leafBodies_mk]
  norm_num

end OrbitForge

namespace OrbitForge

/-- A fresh, never-inserted-into node (as produced by `OctreeNode::new`). -/
def OctreeNode.Fresh (t : OctreeNode) : Prop :=
  t.total_mass = 0 ∧ t.body_index = none ∧ t.children = []

/-- Well-formedness of a built octree: strictly positive aggregate mass at
every node, and a node holding a `body_index` is a childless leaf. -/
inductive OctreeNode.GoodT : OctreeNode → Prop where
  | node (ctr : Vec3) (hs tm : ℝ) (com : Vec3) (bi : Option ℕ)
      (cs : List (ℕ × OctreeNode))
      (htm : 0 < tm) (hleaf : bi.isSome = true → cs = [])
      (hch : ∀ kc ∈ cs, OctreeNode.GoodT kc.2) :
      OctreeNode.GoodT (.mk ctr hs tm com bi cs)

theorem Fresh_new (c : Vec3) (h : ℝ) : (OctreeNode.new c h).Fresh :=
  ⟨rfl, rfl, rfl⟩

theorem leafBodies_of_Fresh {t : OctreeNode} (h : t.Fresh) :
    t.leafBodies = [] := by
  obtain ⟨ctr, hs, tm, com, bi, cs⟩ := t
  obtain ⟨h1, h2, h3⟩ := h
  have hbi : bi = none := h2
  have hcs : cs = [] := h3
  subst hbi hcs
  rw [leafBodies_mk]
  rfl

theorem foldl_vadd (l : List Vec3) :
    l.foldl (· + ·) Vec3.zero = l.sum := by
  have h := foldl_step_sum (M := Vec3) (· + ·) id (fun acc x => rfl) l Vec3.zero
  rw [h, List.map_id]
  show (0 : Vec3) + l.sum = l.sum
  rw [zero_add]

/-- At `theta = 0` the opening criterion never succeeds, so a query descends
to the leaves: the result is the sum of the direct softened contributions of
every stored body other than the querying one. -/
theorem query_theta_zero {t : OctreeNode} (hg : t.GoodT) (pos : Vec3) (q : ℕ)
    (g ssq : ℝ) :
    t.compute_acceleration pos q g ssq 0 =
      ((t.leafBodies.filter (fun x => x.1 ≠ q)).map
        (fun x => direct_accel pos x.2.1 x.2.2 g ssq)).sum := by
  induction hg with
  | node ctr hs tm com bi cs htm hleaf hch ih =>
    rw [OctreeNode.compute_acceleration.eq_def]
    dsimp only
    rw [if_neg (ne_of_gt htm)]
    rcases bi with _ | leafIdx
    · -- internal node: recurse into every child
      rw [if_neg (show ¬ hs * 2 * (hs * 2) < 0 * 0 *
          (((com - pos).x * (com - pos).x + (com - pos).y * (com - pos).y +
            (com - pos).z * (com - pos).z + ssq)) from by
        rw [zero_mul, zero_mul]
        exact not_lt.mpr (mul_self_nonneg (hs * 2)))]
      rw [attachMap cs (fun kc =>
        OctreeNode.compute_acceleration kc.2 pos q g ssq 0)]
      rw [foldl_vadd]
      rw [List.map_congr_left (fun kc hkc => ih kc hkc)]
      rw [leafBodies_mk]
      dsimp only
      rw [List.nil_append, List.filter_flatten, List.map_flatten,
        List.sum_flatten]
      simp only [List.map_map]
      rfl
    · -- single-body leaf
      have hcs : cs = [] := hleaf rfl
      subst hcs
      rw [leafBodies_mk]
      dsimp only
      by_cases hq : leafIdx = q
      · rw [if_pos hq]
        subst hq
        simp
      · rw [if_neg hq]
        simp [hq]

end OrbitForge

namespace OrbitForge

/-- `children[octant]` hit: the association list splits at the first entry
with the queried key, and `replaceChild` replaces exactly that entry. -/
theorem lookup_some_split :
    ∀ (cs : List (ℕ × OctreeNode)) (o : ℕ) (c : OctreeNode),
      List.lookup o cs = some c →
      ∃ cs1 cs2, cs = cs1 ++ (o, c) :: cs2 ∧
        ∀ x, replaceChild cs o x = cs1 ++ (o, x) :: cs2 := by
  intro cs
  induction cs with
  | nil =>
    intro o c h
    simp [List.lookup] at h
  | cons kc rest ih =>
    obtain ⟨k, c0⟩ := kc
    intro o c h
    rw [List.lookup_cons] at h
    rcases hbeq : (o == k) with _ | _
    · rw [hbeq] at h
      have hne : k ≠ o := (Ne.symm (beq_eq_false_iff_ne.mp hbeq))
      obtain ⟨cs1, cs2, heq, hrep⟩ := ih o c h
      refine ⟨(k, c0) :: cs1, cs2, by rw [heq]; rfl, fun x => ?_⟩
      show replaceChild ((k, c0) :: rest) o x = (k, c0) :: (cs1 ++ (o, x) :: cs2)
      unfold replaceChild
      rw [if_neg hne]
      rw [hrep x]
    · rw [hbeq] at h
      have hko : o = k := beq_iff_eq.mp hbeq
      subst hko
      have hc : c0 = c := by
        simpa using h
      subst hc
      refine ⟨[], rest, rfl, fun x => ?_⟩
      show replaceChild ((o, c0) :: rest) o x = (o, x) :: rest
      unfold replaceChild
      rw [if_pos rfl]

end OrbitForge

namespace OrbitForge

theorem GoodT_tm_pos {t : OctreeNode} (h : t.GoodT) : 0 < t.total_mass := by
  cases h with
  | node ctr hs tm com bi cs htm hleaf hch => exact htm

theorem GoodT_inv {ctr : Vec3} {hs tm : ℝ} {com : Vec3} {bi : Option ℕ}
    {cs : List (ℕ × OctreeNode)}
    (h : OctreeNode.GoodT (.mk ctr hs tm com bi cs)) :
    0 < tm ∧ (bi.isSome = true → cs = []) ∧ ∀ kc ∈ cs, OctreeNode.GoodT kc.2 := by
  have h1 : 0 < (OctreeNode.mk ctr hs tm com bi cs).total_mass := GoodT_tm_pos h
  cases h with
  | node c2 h2 t2 m2 b2 s2 htm hleaf hch => exact ⟨htm, hleaf, hch⟩

/-- Inserting a positive-mass body into a fresh or well-formed subtree
without hitting the depth cap yields a well-formed subtree whose stored
bodies are the old ones plus the new one. -/
theorem insertA_spec :
    ∀ (fuel : ℕ) (t : OctreeNode) (idx : ℕ) (pos : Vec3) (mass : ℝ),
      0 < mass → (t.Fresh ∨ t.GoodT) →
      (insertA fuel t idx pos mass).2 = false →
      (insertA fuel t idx pos mass).1.GoodT ∧
      ((insertA fuel t idx pos mass).1.leafBodies).Perm
        ((idx, pos, mass) :: t.leafBodies) := by
  intro fuel
  induction fuel with
  | zero =>
    intro t idx pos mass hm ht hflag
    exact absurd hflag (by simp [insertA])
  | succ f ih =>
    intro t idx pos mass hm ht hflag
    obtain ⟨ctr, hs, tm, com, bi, cs⟩ := t
    by_cases hempty : tm = 0 ∧ bi = none
    · -- empty leaf: the body is stored here
      have hres : insertA (Nat.succ f) (.mk ctr hs tm com bi cs) idx pos mass =
          (.mk ctr hs mass pos (some idx) cs, false) := by
        simp only [insertA]
        rw [if_pos hempty]
      have hfresh : OctreeNode.Fresh (.mk ctr hs tm com bi cs) := by
        rcases ht with hf | hg
        · exact hf
        · exact absurd hempty.1 (ne_of_gt (GoodT_tm_pos hg))
      have hcs : cs = [] := hfresh.2.2
      have hbi : bi = none := hfresh.2.1
      have htm0 : tm = 0 := hfresh.1
      subst hcs hbi htm0
      rw [hres]
      constructor
      · exact .node ctr hs mass pos (some idx) [] hm (fun _ => rfl)
          (fun kc hkc => absurd hkc (List.not_mem_nil kc))
      · rw [leafBodies_mk, leafBodies_mk]
        dsimp only
        exact List.Perm.refl _
    · -- occupied node
      have hgood : OctreeNode.GoodT (.mk ctr hs tm com bi cs) := by
        rcases ht with hf | hg
        · exact absurd ⟨hf.1, hf.2.1⟩ hempty
        · exact hg
      obtain ⟨htm, hleaf, hch⟩ := GoodT_inv hgood
      rcases bi with _ | e
      · -- internal node: the new body goes into a child
        rcases hlk : List.lookup (octant ctr pos) cs with _ | c
        · -- no child in that octant yet: a fresh child is created
          have hres : insertA (Nat.succ f) (.mk ctr hs tm com none cs) idx pos mass =
              (.mk ctr hs (tm + mass)
                (if 0 < tm + mass then
                  Vec3.mk ((com.x * tm + pos.x * mass) / (tm + mass))
                          ((com.y * tm + pos.y * mass) / (tm + mass))
                          ((com.z * tm + pos.z * mass) / (tm + mass))
                 else com) none
                (cs ++ [(octant ctr pos,
                  (insertA f (OctreeNode.new
                    (child_center ctr hs (octant ctr pos)) (hs * 0.5)) idx pos mass).1)]),
               false ||
                 (insertA f (OctreeNode.new
                   (child_center ctr hs (octant ctr pos)) (hs * 0.5)) idx pos mass).2) := by
            simp only [insertA]
            rw [if_neg (show ¬(tm = 0 ∧ True) from by simpa using hempty)]
            rw [hlk]
          rw [hres] at hflag ⊢
          rw [Bool.false_or] at hflag
          obtain ⟨hgB, hpB⟩ := ih _ idx pos mass hm (Or.inl (Fresh_new _ _)) hflag
          constructor
          · refine .node _ _ _ _ _ _ (add_pos htm hm) (fun hso => by simp at hso) ?_
            intro kc hkc
            rcases List.mem_append.mp hkc with hold | hnew
            · exact hch kc hold
            · rw [List.mem_singleton.mp hnew]
              exact hgB
          · show (OctreeNode.leafBodies (.mk ctr hs _ _ none _)).Perm _
            rw [leafBodies_mk, leafBodies_mk]
            rw [List.nil_append, List.nil_append, List.map_append, List.flatten_append]
            rw [List.map_cons, List.map_nil, List.flatten_cons, List.flatten_nil,
              List.append_nil]
            rw [leafBodies_of_Fresh (Fresh_new _ _)] at hpB
            exact (List.Perm.append_left _ hpB).trans
              (List.perm_append_singleton _ _)
        · -- insert into the existing child in that octant
          obtain ⟨cs1, cs2, hsplit, hrep⟩ := lookup_some_split cs _ c hlk
          have hres : insertA (Nat.succ f) (.mk ctr hs tm com none cs) idx pos mass =
              (.mk ctr hs (tm + mass)
                (if 0 < tm + mass then
                  Vec3.mk ((com.x * tm + pos.x * mass) / (tm + mass))
                          ((com.y * tm + pos.y * mass) / (tm + mass))
                          ((com.z * tm + pos.z * mass) / (tm + mass))
                 else com) none
                (replaceChild cs (octant ctr pos)
                  (insertA f c idx pos mass).1),
               false || (insertA f c idx pos mass).2) := by
            simp only [insertA]
            rw [if_neg (show ¬(tm = 0 ∧ True) from by simpa using hempty)]
            rw [hlk]
          rw [hres] at hflag ⊢
          rw [Bool.false_or] at hflag
          have hcmem : (octant ctr pos, c) ∈ cs := by
            rw [hsplit]
            exact List.mem_append_right _ (List.mem_cons_self _ _)
          obtain ⟨hgA, hpA⟩ := ih c idx pos mass hm (Or.inr (hch _ hcmem)) hflag
          rw [hrep]
          constructor
          · refine .node _ _ _ _ _ _ (add_pos htm hm) (fun hso => by simp at hso) ?_
            intro kc hkc
            rcases List.mem_append.mp hkc with h1 | h2
            · refine hch kc ?_
              rw [hsplit]
              exact List.mem_append_left _ h1
            · rcases List.mem_cons.mp h2 with hq | h3
              · rw [hq]
                exact hgA
              · refine hch kc ?_
                rw [hsplit]
                exact List.mem_append_right _ (List.mem_cons_of_mem _ h3)
          · rw [leafBodies_mk, leafBodies_mk]
            dsimp only
            rw [List.nil_append, List.nil_append]
            rw [hsplit]
            rw [List.map_append, List.map_append, List.flatten_append,
              List.flatten_append, List.map_cons, List.map_cons,
              List.flatten_cons, List.flatten_cons]
            dsimp only
            refine List.Perm.trans (List.Perm.append_left _
              (List.Perm.append hpA (List.Perm.refl _))) ?_
            rw [List.cons_append]
            exact List.perm_middle
      · -- single-body leaf: subdivide
        have hcs : cs = [] := hleaf rfl
        subst hcs
        simp only [insertA, List.lookup, List.nil_append] at hflag ⊢
        rw [if_neg (show ¬(tm = 0 ∧ some e = none) from by simp)] at hflag ⊢
        by_cases ho : octant ctr pos = octant ctr com
        · -- both bodies land in the same octant
          rw [show (octant ctr pos == octant ctr com) = true from
            beq_iff_eq.mpr ho] at hflag ⊢
          simp only [replaceChild]
          rw [if_pos ho.symm]
          obtain ⟨hf1, hfA⟩ := Bool.or_eq_false_iff.mp hflag
          obtain ⟨hg1, hp1⟩ := ih _ e com tm htm (Or.inl (Fresh_new _ _)) hf1
          obtain ⟨hgA, hpA⟩ := ih _ idx pos mass hm (Or.inr hg1) hfA
          rw [leafBodies_of_Fresh (Fresh_new _ _)] at hp1
          constructor
          · exact .node _ _ _ _ _ _ (by simpa using hm) (fun hso => by simp at hso)
              (fun kc hkc => by
                rw [List.mem_singleton.mp hkc]
                exact hgA)
          · rw [leafBodies_mk, leafBodies_mk]
            simp only [List.nil_append, List.map_cons, List.map_nil,
              List.flatten_cons, List.flatten_nil, List.append_nil]
            exact hpA.trans (List.Perm.cons _ hp1)
        · -- the bodies land in different octants
          rw [show (octant ctr pos == octant ctr com) = false from
            beq_eq_false_iff_ne.mpr ho] at hflag ⊢
          obtain ⟨hf1, hfB⟩ := Bool.or_eq_false_iff.mp hflag
          obtain ⟨hg1, hp1⟩ := ih _ e com tm htm (Or.inl (Fresh_new _ _)) hf1
          obtain ⟨hgB, hpB⟩ := ih _ idx pos mass hm (Or.inl (Fresh_new _ _)) hfB
          rw [leafBodies_of_Fresh (Fresh_new _ _)] at hp1
          rw [leafBodies_of_Fresh (Fresh_new _ _)] at hpB
          constructor
          · refine .node _ _ _ _ _ _ (by simpa using hm)
              (fun hso => by simp at hso) ?_
            intro kc hkc
            rcases List.mem_cons.mp hkc with h1 | h2
            · rw [h1]
              exact hg1
            · rw [List.mem_singleton.mp h2]
              exact hgB
          · rw [leafBodies_mk, leafBodies_mk]
            simp only [List.nil_append, List.map_append, List.map_cons,
              List.map_nil, List.flatten_append, List.flatten_cons,
              List.flatten_nil, List.append_nil]
            exact (hp1.append hpB).trans (List.Perm.swap _ _ _)

end OrbitForge

namespace OrbitForge

theorem insert_fold_flag (l : List (ℕ × Vec3 × ℝ)) :
    ∀ t : OctreeNode,
      ((l.foldl (fun acc ipm =>
        let r := insertA MAX_DEPTH acc.1 ipm.1 ipm.2.1 ipm.2.2
        (r.1, acc.2 || r.2)) (t, true)).2) = true := by
  induction l with
  | nil => intro t; rfl
  | cons x xs ih =>
    intro t
    rw [List.foldl_cons]
    dsimp only
    rw [Bool.true_or]
    exact ih _

theorem insert_fold_spec (l : List (ℕ × Vec3 × ℝ)) :
    ∀ (t : OctreeNode) (b : Bool),
      (∀ x ∈ l, 0 < x.2.2) → (t.Fresh ∨ t.GoodT) →
      ((l.foldl (fun acc ipm =>
          let r := insertA MAX_DEPTH acc.1 ipm.1 ipm.2.1 ipm.2.2
          (r.1, acc.2 || r.2)) (t, b)).2 = false) →
      (((l.foldl (fun acc ipm =>
          let r := insertA MAX_DEPTH acc.1 ipm.1 ipm.2.1 ipm.2.2
          (r.1, acc.2 || r.2)) (t, b)).1).Fresh ∨
        ((l.foldl (fun acc ipm =>
          let r := insertA MAX_DEPTH acc.1 ipm.1 ipm.2.1 ipm.2.2
          (r.1, acc.2 || r.2)) (t, b)).1).GoodT) ∧
      (((l.foldl (fun acc ipm =>
          let r := insertA MAX_DEPTH acc.1 ipm.1 ipm.2.1 ipm.2.2
          (r.1, acc.2 || r.2)) (t, b)).1).leafBodies).Perm (l ++ t.leafBodies) := by
  induction l with
  | nil =>
    intro t b hp ht hflag
    refine ⟨ht, ?_⟩
    rw [List.nil_append]
    exact List.Perm.refl _
  | cons x xs ih =>
    intro t b hp ht hflag
    rw [List.foldl_cons] at hflag ⊢
    dsimp only at hflag ⊢
    cases hbr : (b || (insertA MAX_DEPTH t x.1 x.2.1 x.2.2).2) with
    | true =>
      rw [hbr] at hflag
      rw [insert_fold_flag xs _] at hflag
      exact absurd hflag (by simp)
    | false =>
      rw [hbr] at hflag
      obtain ⟨hb, hr2⟩ := Bool.or_eq_false_iff.mp hbr
      obtain ⟨hgr, hpr⟩ := insertA_spec MAX_DEPTH t x.1 x.2.1 x.2.2
        (hp x (List.mem_cons_self _ _)) ht hr2
      obtain ⟨hg2, hp2⟩ := ih _ false
        (fun y hy => hp y (List.mem_cons_of_mem _ hy)) (Or.inr hgr) hflag
      exact ⟨hg2, (hp2.trans (List.Perm.append_left xs hpr)).trans List.perm_middle⟩

theorem build_octree_spec (positions : List Vec3) (masses : List ℝ)
    (hp : ∀ x ∈ (positions.zip masses).enum, 0 < x.2.2)
    (hflag : (build_octree positions masses).2 = false) :
    ((build_octree positions masses).1.Fresh ∨
      (build_octree positions masses).1.GoodT) ∧
    ((build_octree positions masses).1.leafBodies).Perm
      ((positions.zip masses).enum) := by
  unfold build_octree at hflag ⊢
  dsimp only at hflag ⊢
  obtain ⟨hg, hperm⟩ := insert_fold_spec ((positions.zip masses).enum) _ false
    hp (Or.inl (Fresh_new _ _)) hflag
  refine ⟨hg, ?_⟩
  rw [leafBodies_of_Fresh (Fresh_new _ _), List.append_nil] at hperm
  exact hperm

end OrbitForge

namespace OrbitForge

theorem enum_eq_range_getD {α : Type} (d : α) (l : List α) :
    l.enum = (List.range l.length).map (fun j => (j, l.getD j d)) := by
  refine List.ext_getElem (by simp) ?_
  intro n h1 h2
  have hn : n < l.length := by simpa using h1
  rw [List.getElem_enum, List.getElem_map, List.getElem_range,
    List.getD_eq_getElem l d hn]

theorem filter_fst_map_sum {β : Type} [AddCommMonoid β] (i : ℕ)
    (G : ℕ × Vec3 × ℝ → β) (F : ℕ → Vec3 × ℝ) :
    ∀ l : List ℕ,
      (((l.map (fun j => (j, F j))).filter (fun x => x.1 ≠ i)).map G).sum =
      (l.map (fun j => if i = j then 0 else G (j, F j))).sum := by
  intro l
  simp only [ne_eq, decide_not]
  induction l with
  | nil => rfl
  | cons a as ihh =>
    rw [List.map_cons, List.filter_cons, List.map_cons]
    by_cases ha : a = i
    · subst ha
      simp [ihh]
    · simp [ha, Ne.symm ha, ihh, List.sum_cons]

end OrbitForge

namespace OrbitForge

theorem bh_accel_eq_brute (s : SimulationState)
    (hm : ∀ b ∈ s.bodies, 0 < b.mass)
    (hcap : (build_octree (s.bodies.map (fun b => b.position))
        (s.bodies.map (fun b => b.mass))).2 = false)
    (i : ℕ) (hi : i < s.bodies.length) :
    (build_octree (s.bodies.map (fun b => b.position))
        (s.bodies.map (fun b => b.mass))).1.compute_acceleration
      ((s.bodies.map (fun b => b.position)).getD i Vec3.zero) i s.g
      (s.softening * s.softening) 0 =
    (List.range s.bodies.length).foldl (fun acc j =>
        if i = j then acc
        else
          let diff := (bget s.bodies j).position - (bget s.bodies i).position
          let dist_sq := diff.x * diff.x + diff.y * diff.y + diff.z * diff.z +
            s.softening * s.softening
          let dist := Real.sqrt dist_sq
          let force_mag := s.g * (bget s.bodies j).mass / dist_sq
          let dir := diff.scale (1 / dist)
          acc + dir.scale force_mag) Vec3.zero := by
  have hpi : (s.bodies.map (fun b => b.position)).getD i Vec3.zero =
      (bget s.bodies i).position :=
    List.getD_map s.bodies defaultBody (fun b => b.position)
  rw [hpi]
  have hposl : ∀ x ∈ ((s.bodies.map (fun b => b.position)).zip
      (s.bodies.map (fun b => b.mass))).enum, 0 < x.2.2 := by
    intro x hx
    rw [List.zip_map'] at hx
    rw [List.enum_map] at hx
    rcases List.mem_map.mp hx with ⟨jb, hjb, hx2⟩
    have hmem := (List.of_mem_zip (by
      rw [← List.enum_eq_zip_range]
      exact hjb)).2
    rw [← hx2]
    exact hm jb.2 hmem
  obtain ⟨hgf, hperm⟩ := build_octree_spec _ _ hposl hcap
  rcases hgf with hfr | hgood
  · exfalso
    rw [leafBodies_of_Fresh hfr] at hperm
    have hlen := hperm.length_eq
    simp at hlen
    omega
  · rw [query_theta_zero hgood ((bget s.bodies i).position) i s.g
      (s.softening * s.softening)]
    rw [List.Perm.sum_eq ((hperm.filter (fun x => x.1 ≠ i)).map
      (fun x => direct_accel ((bget s.bodies i).position) x.2.1 x.2.2 s.g
        (s.softening * s.softening)))]
    rw [List.zip_map', List.enum_map, enum_eq_range_getD defaultBody, List.map_map]
    rw [show ((Prod.map id (fun b => (b.position, b.mass))) ∘
        (fun j => (j, s.bodies.getD j defaultBody))) =
        (fun j => (j, ((bget s.bodies j).position, (bget s.bodies j).mass))) from
      funext (fun j => rfl)]
    rw [filter_fst_map_sum i
      (fun x => direct_accel ((bget s.bodies i).position) x.2.1 x.2.2 s.g
        (s.softening * s.softening))
      (fun j => ((bget s.bodies j).position, (bget s.bodies j).mass))
      (List.range s.bodies.length)]
    rw [foldl_step_sum _
      (fun j => if i = j then (0 : Vec3) else
        let diff := (bget s.bodies j).position - (bget s.bodies i).position
        let dist_sq := diff.x * diff.x + diff.y * diff.y + diff.z * diff.z +
          s.softening * s.softening
        let dist := Real.sqrt dist_sq
        let force_mag := s.g * (bget s.bodies j).mass / dist_sq
        let dir := diff.scale (1 / dist)
        dir.scale force_mag)
      (fun acc j => by
        dsimp only
        by_cases hij : i = j
        · rw [if_pos hij, if_pos hij, add_zero]
        · rw [if_neg hij, if_neg hij])
      (List.range s.bodies.length) Vec3.zero]
    rw [show (Vec3.zero : Vec3) + ((List.range s.bodies.length).map _).sum =
        ((List.range s.bodies.length).map _).sum from zero_add _]
    refine congrArg List.sum (List.map_congr_left ?_)
    intro j hj
    by_cases hij : i = j
    · rw [if_pos hij, if_pos hij]
    · rw [if_neg hij, if_neg hij]
      dsimp only
      unfold direct_accel
      dsimp only
      rw [Vec3.sub_def, Vec3.scale_def, Vec3.scale_def, Vec3.scale_def]
      rw [Vec3.mk.injEq]
      refine ⟨by ring, by ring, by ring⟩

end OrbitForge

namespace OrbitForge

/-- C4: with positive body masses (the data model's invariant), `theta = 0`
and no insertion reaching the depth-20 cap, the Barnes–Hut backend computes
exactly the same state as the direct O(N²) backend: the opening criterion
`s² < θ²·d²` never holds at `θ = 0`, every query descends to single-body
leaves, and the per-leaf softened inverse-cube contributions with
self-exclusion sum to the brute-force inner loop. -/
theorem claim_C4_theta_zero (s : SimulationState)
    (hm : ∀ b ∈ s.bodies, 0 < b.mass) (hth : s.theta = 0)
    (hcap : (build_octree (s.bodies.map (fun b => b.position))
        (s.bodies.map (fun b => b.mass))).2 = false) :
    s.compute_accelerations_barneshut = s.compute_accelerations_brute := by
  unfold SimulationState.compute_accelerations_barneshut
    SimulationState.compute_accelerations_brute
  dsimp only
  congr 1
  refine congrArg (List.zipWith (fun b a => { b with acceleration := a }) s.bodies) ?_
  refine List.map_congr_left ?_
  intro i hi
  have hi' : i < s.bodies.length := List.mem_range.mp hi
  by_cases hfix : (bget s.bodies i).is_fixed
  · rw [if_pos hfix, if_pos hfix]
  · rw [if_neg hfix, if_neg hfix]
    rw [hth]
    exact bh_accel_eq_brute s hm hcap i hi'

/-- A concrete two-body state (theta 0) for the C4 witness. -/
def c4State : SimulationState :=
  { SimulationState.new with
    theta := 0,
    bodies := [CelestialBody.new 0 ("P") ⟨0, 0, 0⟩ ⟨0, 0, 0⟩ 5 1 ("#C40001") false,
               CelestialBody.new 1 ("Q") ⟨10, 0, 0⟩ ⟨0, 0, 0⟩ 7 1 ("#C40002") false],
    next_id := 2 }

/-- Witness for C4: the refinement theorem applied at a concrete two-body
state, with positivity, `theta = 0` and the no-cap flag discharged by
evaluation. -/
theorem claim_C4_theta_zero_witness :
    (∀ b ∈ c4State.bodies, 0 < b.mass) ∧ c4State.theta = 0 ∧
    (build_octree (c4State.bodies.map (fun b => b.position))
        (c4State.bodies.map (fun b => b.mass))).2 = false ∧
    c4State.compute_accelerations_barneshut = c4State.compute_accelerations_brute := by
  have h1 : ∀ b ∈ c4State.bodies, 0 < b.mass := by
    intro b hb
    rw [show c4State.bodies =
      [CelestialBody.new 0 ("P") ⟨0, 0, 0⟩ ⟨0, 0, 0⟩ 5 1 ("#C40001") false,
       CelestialBody.new 1 ("Q") ⟨10, 0, 0⟩ ⟨0, 0, 0⟩ 7 1 ("#C40002") false] from rfl] at hb
    rcases List.mem_cons.mp hb with h | h
    · rw [h]
      norm_num [CelestialBody.new]
    · rw [List.mem_singleton.mp h]
      norm_num [CelestialBody.new]
  have h3 : (build_octree (c4State.bodies.map (fun b => b.position))
      (c4State.bodies.map (fun b => b.mass))).2 = false := by
    rw [show c4State.bodies.map (fun b => b.position) =
        [(⟨0, 0, 0⟩ : Vec3), ⟨10, 0, 0⟩] from rfl,
      show c4State.bodies.map (fun b => b.mass) = [(5 : ℝ), 7] from rfl,
      c3_build_eval]
  exact ⟨h1, rfl, h3, claim_C4_theta_zero c4State h1 rfl h3⟩

end OrbitForge
